import Mathlib

/-!
Verification development for the nylbot-merge GitHub Action.

The TypeScript sources (`src/constants.ts`, `src/validation.ts`, `src/action.ts`,
`src/main.ts`) are shallowly embedded as pure Lean functions.  Remote-host
interaction (`src/github-api.ts`) is abstracted as an `ApiEnv` record supplying
the results of every remote call, and `executeAction` additionally returns a
trace of the side effects it performs (reactions, comments, fetches, sleeps,
review dismissals, the merge call), so that temporal claims such as "the merge
call is never issued" become statements about the trace.
-/

namespace Nylbot

/-! ## Data model (mirrors `src/types.ts`) -/

/-- Configuration options for the action (`ActionConfig` in `types.ts`).
The two retry numbers are validated to small positive ranges by `parseConfig`,
so they are modelled as `Nat`. -/
structure ActionConfig where
  releaseBranchPrefix : String
  developBranch : String
  syncBranchPrefix : String
  mergeableRetryCount : Nat
  mergeableRetryInterval : Nat
deriving Repr

/-- Context of the triggering event (`EventContext` in `types.ts`). -/
structure EventContext where
  owner : String
  repo : String
  prNumber : Nat
  commentId : Nat
  commentBody : String
  actor : String
  userType : String
  authorAssociation : String
  serverUrl : String
  runId : Nat
  eventName : String
  isPullRequest : Bool
deriving Repr

/-- Pull request snapshot (`PullRequestData` in `types.ts`).
The tri-state `mergeable: boolean | null` becomes `Option Bool`
(`none` is the JavaScript `null`, the pending/unknown state). -/
structure PullRequestData where
  state : String
  locked : Bool
  draft : Bool
  merged : Bool
  mergeable : Option Bool
  mergeableState : String
  headSha : String
  headRef : String
  baseRef : String
  author : String
  isFork : Bool
  title : String
deriving Repr, DecidableEq

/-- One entry of the merge checklist (`CheckResult` in `types.ts`).
The TypeScript optional fields `details?` and `optional?` become
`Option String` and a `Bool` defaulting to `false` (an absent `optional`
field and `optional: false` are indistinguishable to all readers, which
only ever test truthiness). -/
structure CheckResult where
  name : String
  passed : Bool
  details : Option String := none
  optional : Bool := false
deriving Repr, DecidableEq

/-- Merge strategy (`method: squash | merge`). -/
inductive MergeMethod where
  | squash
  | merge
deriving Repr, DecidableEq

/-- Rendering of a `MergeMethod` used in template strings. -/
def methodString : MergeMethod → String
  | .squash => "squash"
  | .merge => "merge"

/-- Merge method decision (`MergeMethodResult` in `types.ts`). -/
structure MergeMethodResult where
  method : MergeMethod
  reason : String
deriving Repr, DecidableEq

/-- Final status of the operation. -/
inductive ActionStatus where
  | merged
  | skipped
  | failed
  | already_merged
deriving Repr, DecidableEq

/-- Overall result of the operation (`ActionResult` in `types.ts`). -/
structure ActionResult where
  status : ActionStatus
  message : String
  mergeMethod : Option MergeMethod := none
deriving Repr, DecidableEq

/-- Options parsed from the command (`MergeOptions` in `types.ts`). -/
structure MergeOptions where
  overrideApprovalRequirement : Bool
deriving Repr, DecidableEq

/-- An approved review as consumed by `executeAction`
(fields `id`, `user?.login`, `commit_id` of the GitHub review object;
optional fields become `Option`). -/
structure Review where
  id : Nat
  userLogin : Option String
  commitId : Option String
deriving Repr, DecidableEq

/-- Author information of a PR commit (`commit.author`, both fields optional). -/
structure CommitAuthor where
  name : Option String
  email : Option String
deriving Repr, DecidableEq

/-- A PR commit as consumed by the squash message composer
(`c.commit.message`, `c.commit.author`). -/
structure CommitData where
  message : String
  author : Option CommitAuthor
deriving Repr, DecidableEq

/-- Result of the merge API call (`mergePullRequest` in `github-api.ts`). -/
structure MergeApiResult where
  success : Bool
  error : String
  mergeCommitSha : Option String
deriving Repr, DecidableEq

/-! ## Constants (mirrors `src/constants.ts`) -/

/-- Valid command flags (`VALID_FLAGS`). -/
def VALID_FLAGS : List String := ["--override-approval-requirement"]

/-- Author associations allowed to use the command (`VALID_AUTHOR_ASSOCIATIONS`). -/
def VALID_AUTHOR_ASSOCIATIONS : List String := ["OWNER", "MEMBER", "COLLABORATOR"]

/-- Permission levels allowed to use the command (`VALID_PERMISSIONS`). -/
def VALID_PERMISSIONS : List String := ["admin", "maintain", "write"]

/-- Conventional Commits types (`CONVENTIONAL_COMMIT_TYPES`). -/
def CONVENTIONAL_COMMIT_TYPES : List String :=
  ["build", "chore", "ci", "docs", "feat", "fix", "perf",
   "refactor", "revert", "style", "test", "ux"]

/-! ## Character classes used by the regular expressions in `constants.ts`.
JavaScript whitespace classes are modelled on the ASCII whitespace characters
(space, tab, carriage return, line feed, vertical tab, form feed); the exotic
Unicode space code points never occur in the inputs the claims are about. -/

/-- Characters matched by `[ \t]` in the trigger and command regexes. -/
def isSpaceTab (c : Char) : Bool := c == ' ' || c == '\t'

/-- Line terminators, which the JavaScript `.` metacharacter does not match. -/
def isLineTerm (c : Char) : Bool :=
  c == '\n' || c == '\x0d' || c == Char.ofNat 8232 || c == Char.ofNat 8233

/-- Characters matched by the JavaScript `\s` class (ASCII part). -/
def isJsWhitespace (c : Char) : Bool :=
  c == ' ' || c == '\t' || c == '\n' || c == '\x0d' || c == '\x0b' || c == '\x0c'

/-- JavaScript `String.prototype.startsWith`, stated on the character lists
(extensionally the prefix test on strings, and directly computable). -/
def jsStartsWith (s pre : String) : Bool := pre.toList.isPrefixOf s.toList

/-- JavaScript `String.prototype.trim`, on the character list. -/
def jsTrim (s : String) : String :=
  String.mk (((s.toList.dropWhile isJsWhitespace).reverse.dropWhile isJsWhitespace).reverse)

/-- Tokenizer underlying a JavaScript `split(/\s+/)` on a trimmed string:
the maximal non-whitespace runs, in order.  `acc` is the current token,
reversed. -/
def wsTokensAux : List Char → List Char → List String
  | acc, [] => if acc.isEmpty then [] else [String.mk acc.reverse]
  | acc, c :: cs =>
    if isJsWhitespace c then
      if acc.isEmpty then wsTokensAux [] cs
      else String.mk acc.reverse :: wsTokensAux [] cs
    else wsTokensAux (c :: acc) cs

/-- JavaScript `split(/\s+/)` of a trimmed string: its whitespace-separated
tokens. -/
def jsSplitWsTokens (s : String) : List String := wsTokensAux [] s.toList

/-- JavaScript `sha.slice(0, 7)`: the first seven characters. -/
def shortSha (s : String) : String := String.mk (s.toList.take 7)

/-! ## Pure validation functions (mirrors `src/validation.ts`) -/

/-- Test of `CONVENTIONAL_COMMIT_REGEX`, the anchored pattern
`^(<type>|...)(\([^)!]+\))?!?:\s*\S.*$` (no multiline flag): a known type,
an optional non-empty scope containing neither a closing parenthesis nor an
exclamation mark, an optional breaking-change marker immediately before the
colon, then whitespace and a non-empty description with no line terminator
after its first character.  No listed type is a prefix of another and no
alternative of the scope/marker options overlaps, so the backtracking regex
is equivalent to this deterministic scan. -/
def isConventionalCommitTitle (title : String) : Bool :=
  let cs := title.toList
  match CONVENTIONAL_COMMIT_TYPES.find? (fun t => t.toList.isPrefixOf cs) with
  | none => false
  | some t =>
    let rest := cs.drop t.length
    let afterScope : Option (List Char) :=
      match rest with
      | '(' :: r =>
        let inner := r.takeWhile (fun c => !(c == ')') && !(c == '!'))
        if inner.isEmpty then none
        else
          match r.drop inner.length with
          | ')' :: r2 => some r2
          | _ => none
      | _ => some rest
    match afterScope with
    | none => false
    | some r2 =>
      let afterColon : Option (List Char) :=
        match r2 with
        | '!' :: ':' :: r3 => some r3
        | ':' :: r3 => some r3
        | _ => none
      match afterColon with
      | none => false
      | some r3 =>
        let descr := r3.dropWhile isJsWhitespace
        !descr.isEmpty && (descr.drop 1).all (fun c => !isLineTerm c)

/-- Test of `BOT_TRIGGER_REGEX`, the pattern `^[ \t]*\/.{2,5}bot`: optional
space/tab, a slash, two to five non-line-terminator characters, then "bot". -/
def hasBotMention (commentBody : String) : Bool :=
  let cs := commentBody.toList.dropWhile isSpaceTab
  match cs with
  | '/' :: rest =>
    [2, 3, 4, 5].any fun k =>
      decide (k ≤ rest.length) &&
      (rest.take k).all (fun c => !isLineTerm c) &&
      "bot".toList.isPrefixOf (rest.drop k)
  | _ => false

/-- Match of `COMMAND_REGEX`, the anchored pattern
`^[ \t]*\/nylbot[ \t]+merge(?:[ \t]+([^\n]*))?[ \t]*$` (no multiline flag).
Returns `none` when the comment does not match, `some none` when the optional
flags group did not participate (`match[1]` is `undefined`), and
`some (some s)` with the greedy capture otherwise. -/
def commandMatch (commentBody : String) : Option (Option String) :=
  let cs := commentBody.toList.dropWhile isSpaceTab
  if "/nylbot".toList.isPrefixOf cs then
    let cs1 := cs.drop 7
    if (cs1.takeWhile isSpaceTab).isEmpty then none
    else
      let cs2 := cs1.dropWhile isSpaceTab
      if "merge".toList.isPrefixOf cs2 then
        let rest := cs2.drop 5
        if rest.isEmpty then some none
        else if (rest.takeWhile isSpaceTab).isEmpty then none
        else
          let r := rest.dropWhile isSpaceTab
          if r.contains '\n' then none else some (some (String.mk r))
      else none
  else none

/-- Parses the `/nylbot merge` command and extracts options
(`parseCommand` in `validation.ts`).  The TypeScript splits the trimmed
flag string on `\s+`; on a trimmed string this equals splitting on single
whitespace characters and discarding empty fragments. -/
def parseCommand (commentBody : String) : Option MergeOptions :=
  match commandMatch commentBody with
  | none => none
  | some capture =>
    let flagsStr := jsTrim (capture.getD "")
    let flags : List String :=
      if flagsStr = "" then [] else jsSplitWsTokens flagsStr
    if flags.all (fun flag => VALID_FLAGS.contains flag) then
      some { overrideApprovalRequirement := flags.contains "--override-approval-requirement" }
    else none

/-- Checks if the user type indicates a bot (`isBot`). -/
def isBot (userType : String) : Bool := userType == "Bot"

/-- Checks the author association against the allow-set (`hasValidAuthorAssociation`). -/
def hasValidAuthorAssociation (association : String) : Bool :=
  VALID_AUTHOR_ASSOCIATIONS.contains association

/-- Checks the permission level against the allow-set (`hasValidPermission`). -/
def hasValidPermission (permission : String) : Bool :=
  VALID_PERMISSIONS.contains permission

/-- Determines the merge method from branch names (`determineMergeMethod`). -/
def determineMergeMethod (headRef baseRef : String) (config : ActionConfig) :
    MergeMethodResult :=
  if jsStartsWith headRef config.releaseBranchPrefix then
    { method := .merge,
      reason := "Head branch `" ++ headRef ++
        "` is a release branch (merge commit to preserve release history)" }
  else if jsStartsWith headRef config.syncBranchPrefix then
    { method := .merge,
      reason := "Head branch `" ++ headRef ++
        "` is a sync branch (merge commit to preserve back-merge history)" }
  else if jsStartsWith baseRef config.releaseBranchPrefix then
    { method := .squash,
      reason := "Base branch `" ++ baseRef ++ "` is a release branch" }
  else if baseRef = config.developBranch then
    { method := .squash, reason := "Base branch is `" ++ baseRef ++ "`" }
  else
    { method := .merge,
      reason := "Default merge commit for `" ++ headRef ++ "` into `" ++ baseRef ++ "`" }

/-- Validates the PR state for merging (`validatePRState`). -/
def validatePRState (prData : PullRequestData) : List CheckResult :=
  let isOpen := prData.state == "open"
  let isUnlocked := !prData.locked
  let isNotDraft := !prData.draft
  let allPassed := isOpen && isUnlocked && isNotDraft
  let failureReasons : List String :=
    (if !isOpen then ["currently closed"] else []) ++
    (if !isUnlocked then ["currently locked"] else []) ++
    (if !isNotDraft then ["currently a draft"] else [])
  [{ name := "PR is ready for review",
     passed := allPassed,
     details := if failureReasons.length > 0
       then some (String.intercalate ", " failureReasons) else none }]

/-- Human-readable description for a mergeable state (`getMergeableStateDescription`). -/
def getMergeableStateDescription (state : String) : String :=
  if state = "dirty" then "has unresolved conflicts"
  else if state = "unknown" then "mergeability not yet computed; please retry"
  else if state = "blocked" then "failing or missing required status checks"
  else if state = "behind" then "head branch is behind base branch"
  else if state = "unstable" then "optional status checks pending or failing"
  else if state = "has_hooks" then "repository has custom pre-receive hooks"
  else if state = "clean" then "ready to merge"
  else if state = "draft" then "draft PR; not ready for review"
  else "mergeable_state: " ++ state

/-- Builds the check results markdown for PR comments (`buildCheckResultsMarkdown`). -/
def buildCheckResultsMarkdown (checks : List CheckResult) : String :=
  String.intercalate "\n" (checks.map fun check =>
    let icon := if check.passed then "✅" else if check.optional then "⚠️" else "❌"
    let detail := match check.details with
      | some d => " (" ++ d ++ ")"
      | none => ""
    "- " ++ icon ++ " " ++ check.name ++ detail)

/-! ## Side effects and the abstract remote host

`executeAction` performs its remote calls strictly sequentially, awaiting each
before the next (spec section 5), so a run is modelled as a pure function of an
`ApiEnv` that supplies the result of every call, together with the ordered
trace of the effects performed.  Successive snapshot fetches are numbered: the
initial fetch is index 0, the pre-merge TOCTOU re-fetch is index 1, and the
fetches inside the mergeability retry loop are indices 2, 3, ... -/

/-- One observable side effect of a pipeline run. -/
inductive Effect where
  | addReaction (content : String)
  | postComment (body : String)
  | getPermission (login : String)
  | fetchPR (idx : Nat)
  | countThreads
  | fetchReviews
  | dismissReview (reviewId : Nat) (message : String)
  | sleep (ms : Nat)
  | fetchCommits
  | mergeCall (method : MergeMethod) (expectedHeadSha : String)
      (commitTitle : String) (commitBody : String)
deriving Repr, DecidableEq

/-- Results the remote host returns to each call of the pipeline.
`fetchPR n` is the snapshot returned by the `n`-th fetch (0-based);
`permission` is the collaborator permission by login (the host returns the
sentinel "none" on failed lookups and never throws); `dismissOk` tells whether
dismissing a given review id succeeds. -/
structure ApiEnv where
  permission : String → String
  fetchPR : Nat → PullRequestData
  unresolvedCount : Nat
  approvedReviews : List Review
  dismissOk : Nat → Bool
  commits : List CommitData
  mergeResult : MergeApiResult

/-- Is the effect the merge API call? -/
def Effect.isMergeCall : Effect → Bool
  | .mergeCall _ _ _ _ => true
  | _ => false

/-- Is the effect a sleep in the mergeability retry loop? -/
def Effect.isSleep : Effect → Bool
  | .sleep _ => true
  | _ => false

/-- Is the effect a snapshot re-fetch inside the retry loop (fetch index 2 or
beyond)? -/
def Effect.isRetryFetch : Effect → Bool
  | .fetchPR i => decide (2 ≤ i)
  | _ => false

/-- No merge call occurs in the trace. -/
def noMergeCall (effects : List Effect) : Bool :=
  effects.all fun e => !e.isMergeCall

/-! ## Comment templates (string literals of `action.ts`) -/

/-- Strips the trailing slashes of the server URL (`serverUrl.replace(/\/+$/, '')`). -/
def stripTrailingSlashes (s : String) : String :=
  String.mk ((s.toList.reverse.dropWhile (fun c => c == '/')).reverse)

/-- URL of the triggering comment.  `new URL(path, base).href` is modelled as
plain concatenation, which is its value for the well-formed absolute
`http(s)` base URLs the action runs with. -/
def commentUrlOf (ctx : EventContext) : String :=
  stripTrailingSlashes ctx.serverUrl ++ "/" ++ ctx.owner ++ "/" ++ ctx.repo ++
    "/pull/" ++ toString ctx.prNumber ++ "#issuecomment-" ++ toString ctx.commentId

/-- Reply to an unrecognized command. -/
def unrecognizedCommandComment (commentUrl : String) : String :=
  "## Unrecognized command\n\n> [!NOTE]\n> I\x27m nylbot. I couldn\x27t recognize that command. If it was for me, please check the format.\n>\n> Comment: " ++ commentUrl

/-- Reply when the author association is not allowed. -/
def permissionDeniedAssociationComment (authorAssociation : String) : String :=
  "## Permission denied\n\n> [!CAUTION]\n> Only repository owners, members, and collaborators can use the `/nylbot merge` command.\n>\n> Your association: `" ++ authorAssociation ++ "`"

/-- Reply when the permission level is insufficient. -/
def permissionDeniedLevelComment (authorAssociation permission : String) : String :=
  "## Permission denied\n\n> [!CAUTION]\n> You need at least **write** permission on this repository to use the `/nylbot merge` command.\n>\n> Your association: `" ++ authorAssociation ++ "`\n> Your permission level: `" ++ permission ++ "`"

/-- Reply for PRs from forked repositories. -/
def forkComment : String :=
  "## Fork PR not supported\n\n> [!WARNING]\n> The `/nylbot merge` command is not supported for PRs from forked repositories.\n>\n> This is because the GITHUB_TOKEN has limited write permissions for fork-originated PRs by default."

/-- Reply for already merged PRs. -/
def alreadyMergedComment : String :=
  "## Already merged\n\nThis PR has already been merged."

/-- Message used to dismiss a stale approval, containing the short reviewed
and current SHAs.  `review.commit_id?.slice(0, 7)` renders as the string
"undefined" inside the template when the commit id is absent. -/
def staleDismissMessage (commitId : Option String) (headSha : String) : String :=
  "Approval dismissed: New commits were pushed after this review was submitted (reviewed commit: " ++
    (match commitId with
     | some s => shortSha s
     | none => "undefined") ++
    ", current HEAD: " ++ shortSha headSha ++ ")."

/-- Failure line recorded when dismissing a stale approval fails. -/
def dismissFailureLine (login : String) : String :=
  "- Failed to dismiss approval from @" ++ login ++
    " (insufficient permissions or branch protection settings)"

/-- Warning comment aggregating the dismissal failures. -/
def staleDismissFailuresComment (dismissFailures : List String) : String :=
  "## Stale approval dismiss failures\n\n> [!WARNING]\n> The following approvals could not be dismissed (consider enabling \"Dismiss stale pull request approvals when new commits are pushed\" in branch protection settings):\n>\n" ++
    String.intercalate "\n" (dismissFailures.map fun f => "> " ++ f)

/-- Comment posted when a required check failed. -/
def mergeChecksFailedComment (checksMarkdown : String) (mergeMethodResult : MergeMethodResult) : String :=
  "## Merge checks failed\n\nThe following checks must pass before merging:\n\n" ++
    checksMarkdown ++ "\n\n### Merge Method\n\n- **Method:** `" ++
    methodString mergeMethodResult.method ++ "`\n- **Reason:** " ++ mergeMethodResult.reason

/-- Comment posted when all required checks passed. -/
def mergeChecksPassedComment (checksMarkdown : String) (mergeMethodResult : MergeMethodResult) : String :=
  "## Merge checks passed\n\nAll checks passed. Proceeding to merge...\n\n" ++
    checksMarkdown ++ "\n\n### Merge Method\n\n- **Method:** `" ++
    methodString mergeMethodResult.method ++ "`\n- **Reason:** " ++ mergeMethodResult.reason

/-- Comment posted when the pre-merge re-fetch sees a different head SHA. -/
def newCommitsComment (originalHeadSha currentHeadSha : String) : String :=
  "## New commits detected\n\n> [!WARNING]\n> New commits were pushed while validating this PR.\n>\n> - Original HEAD SHA: " ++
    originalHeadSha ++ "\n> - Current HEAD SHA: " ++ currentHeadSha ++
    "\n>\n> Please run `/nylbot merge` again after the new commits are reviewed and approved."

/-- Comment posted when a retry-loop re-fetch sees a different head SHA. -/
def newCommitsDuringRetryComment (originalHeadSha currentHeadSha : String) : String :=
  "## New commits detected\n\n> [!WARNING]\n> New commits were pushed while validating this PR (after waiting for mergeable status).\n>\n> - Original HEAD SHA: " ++
    originalHeadSha ++ "\n> - Current HEAD SHA: " ++ currentHeadSha ++
    "\n>\n> Please run `/nylbot merge` again after the new commits are reviewed and approved."

/-- Rendering of the tri-state mergeable flag inside template strings. -/
def jsBoolString : Option Bool → String
  | some true => "true"
  | some false => "false"
  | none => "null"

/-- Comment for a still-pending mergeability computation. -/
def pendingComment (mergeableState : String) (retryCount retryInterval : Nat) : String :=
  "## Mergeability status pending\n\n> [!NOTE]\n> GitHub is still calculating mergeability for this PR.\n>\n> - Mergeable: `null`\n> - Mergeable State: `" ++
    mergeableState ++ "`\n> - Retries: count=" ++ toString retryCount ++
    ", interval=" ++ toString retryInterval ++
    "s\n>\n> Please try `/nylbot merge` again shortly."

/-- Comment for merge conflicts (mergeable state "dirty"). -/
def conflictsComment (mergeable : Option Bool) (mergeableState : String) : String :=
  "## Conflicts detected\n\n> [!CAUTION]\n> This PR has merge conflicts that must be resolved before merging.\n>\n> - Mergeable: `" ++
    jsBoolString mergeable ++ "`\n> - Mergeable State: `" ++ mergeableState ++
    "`\n>\n> Please resolve the conflicts and try again."

/-- Generic not-mergeable comment. -/
def cannotMergeComment (mergeable : Option Bool) (mergeableState : String) : String :=
  "## Cannot merge\n\n> [!CAUTION]\n> This PR cannot be merged:\n>\n> - Mergeable: `" ++
    jsBoolString mergeable ++ "`\n> - Mergeable State: `" ++ mergeableState ++
    "`\n>\n> Please resolve any conflicts or issues before attempting to merge."

/-- Comment for a rejected merge call. -/
def mergeFailedComment (error : String) : String :=
  "## Merge failed\n\n> [!CAUTION]\n> Failed to merge PR:\n>\n> - Error: " ++ error ++
    "\n>\n> Please check the PR status and try again."

/-- Success comment after the merge. -/
def mergedComment (method : MergeMethod) (baseRef headRef originalHeadSha : String)
    (mergeCommitSha : Option String) : String :=
  let mergeCommitInfo := match mergeCommitSha with
    | some s => "\n- **Merge Commit SHA:** " ++ s
    | none => ""
  "## Merged by nylbot-merge\n\nThis PR has been successfully merged.\n\n### Details\n\n- **Merge Method:** `" ++
    methodString method ++ "`\n- **Base Branch:** `" ++ baseRef ++
    "`\n- **Head Branch:** `" ++ headRef ++ "`\n- **HEAD SHA:** " ++
    originalHeadSha ++ mergeCommitInfo

/-! ## Approval reconciliation (loop over approved reviews, `action.ts`) -/

/-- Accumulator of the review loop: valid approval tally, dismissal failure
lines, the per-run permission cache, and the effects performed so far. -/
structure ReviewAcc where
  validApprovals : Nat
  dismissFailures : List String
  cache : List (String × String)
  effects : List Effect
deriving Repr

/-- One iteration of the review loop: skip self-approvals and reviews without
a login, look up the reviewer permission through the per-run cache, skip on
insufficient permission, dismiss stale reviews (recording a failure line if
the dismissal fails), and otherwise count one valid approval. -/
def reviewStep (env : ApiEnv) (prAuthor headSha : String) (acc : ReviewAcc)
    (review : Review) : ReviewAcc :=
  if review.userLogin = some prAuthor then acc
  else
    match review.userLogin with
    | none => acc
    | some reviewerLogin =>
      let lookup : String × List (String × String) × List Effect :=
        match acc.cache.lookup reviewerLogin with
        | some p => (p, acc.cache, [])
        | none =>
          let p := env.permission reviewerLogin
          (p, acc.cache ++ [(reviewerLogin, p)], [Effect.getPermission reviewerLogin])
      let reviewerPermission := lookup.1
      let cache := lookup.2.1
      let lookupEffects := lookup.2.2
      if !hasValidPermission reviewerPermission then
        { acc with cache := cache, effects := acc.effects ++ lookupEffects }
      else if review.commitId ≠ some headSha then
        let message := staleDismissMessage review.commitId headSha
        let dismissEffects := [Effect.dismissReview review.id message]
        if env.dismissOk review.id then
          { acc with
            cache := cache,
            effects := acc.effects ++ lookupEffects ++ dismissEffects }
        else
          { acc with
            cache := cache,
            dismissFailures := acc.dismissFailures ++ [dismissFailureLine reviewerLogin],
            effects := acc.effects ++ lookupEffects ++ dismissEffects }
      else
        { acc with
          validApprovals := acc.validApprovals + 1,
          cache := cache,
          effects := acc.effects ++ lookupEffects }

/-- The review loop of `executeAction` over all approved reviews. -/
def processReviews (env : ApiEnv) (prAuthor headSha : String)
    (reviews : List Review) : ReviewAcc :=
  reviews.foldl (reviewStep env prAuthor headSha) ⟨0, [], [], []⟩

/-! ## Check aggregation (`action.ts`) -/

/-- The unresolved-conversations check. -/
def threadsCheckOf (unresolvedCount : Nat) : CheckResult :=
  { name := "All review conversations are resolved",
    passed := unresolvedCount == 0,
    details := if unresolvedCount > 0
      then some (toString unresolvedCount ++ " unresolved") else none }

/-- Whether the approval requirement was actually overridden: the flag was
supplied and the approval check did not pass on its own. -/
def approvalOverriddenOf (validApprovals : Nat) (overrideFlag : Bool) : Bool :=
  overrideFlag && !(validApprovals ≥ 1 : Bool)

/-- The approval check result. -/
def approvalCheckOf (validApprovals : Nat) (overrideFlag : Bool) : CheckResult :=
  let approvalCheckPassed : Bool := validApprovals ≥ 1
  let approvalOverridden := approvalOverriddenOf validApprovals overrideFlag
  { name := "At least one valid approval from another user",
    passed := approvalCheckPassed,
    details :=
      if approvalCheckPassed then none
      else if approvalOverridden then
        some "approval requirement overridden by `--override-approval-requirement`; no valid approvals found"
      else some "no valid approvals found",
    optional := approvalOverridden }

/-- The mergeable-state check: only the state "clean" passes. -/
def mergeableStateCheckOf (prData : PullRequestData) : CheckResult :=
  let mergeableStateIsClean := prData.mergeableState == "clean"
  { name := "Mergeable state is clean",
    passed := mergeableStateIsClean,
    details := if !mergeableStateIsClean
      then some (getMergeableStateDescription prData.mergeableState) else none }

/-- The always-optional Conventional Commits title check. -/
def conventionalCommitsCheckOf (title : String) : CheckResult :=
  let isConventionalTitle := isConventionalCommitTitle title
  { name := "PR title follows [Conventional Commits](https://www.conventionalcommits.org/)",
    passed := isConventionalTitle,
    details := if !isConventionalTitle
      then some "title does not follow conventional format" else none,
    optional := true }

/-- The ordered check list built by `executeAction`: readiness, conversations,
approval, mergeable state, conventional title. -/
def buildChecks (prData : PullRequestData) (unresolvedCount validApprovals : Nat)
    (overrideFlag : Bool) : List CheckResult :=
  validatePRState prData ++
    [threadsCheckOf unresolvedCount,
     approvalCheckOf validApprovals overrideFlag,
     mergeableStateCheckOf prData,
     conventionalCommitsCheckOf prData.title]

/-- The merge gate: only required (non-optional) checks must pass. -/
def mergeGatePassed (checks : List CheckResult) : Bool :=
  (checks.filter fun c => !c.optional).all fun c => c.passed

/-! ## Commit message composition (`action.ts`) -/

/-- The additional metadata block of the commit body: actor attribution plus
the exceptional-override marker when the approval override actually fired. -/
def additionalMessagesFor (actor : String) (approvalOverridden : Bool) : String :=
  let base := "Merged-by: nylbot-merge (on behalf of @" ++ actor ++ ")"
  if approvalOverridden then
    base ++ "\n\n⚠️ EXCEPTIONAL MERGE: Approval requirement overridden via --override-approval-requirement"
  else base

/-- The bullet a commit contributes: `* <first message line>`, or the empty
string (filtered out below) when the first line is empty. -/
def bulletOf (c : CommitData) : String :=
  let firstLine := (c.message.splitOn "\n").headD ""
  if firstLine ≠ "" then "* " ++ firstLine else ""

/-- One bullet per commit first line, in commit order, empty first lines
filtered out. -/
def commitBullets (commits : List CommitData) : List String :=
  (commits.map bulletOf).filter (fun t => t ≠ "")

/-- One step of the co-author collection (the body of the `forEach` loop):
commits with a non-empty author name and email contribute their line, added
only when not already present. -/
def coAuthorStep (coAuthors : List String) (c : CommitData) : List String :=
  match c.author with
  | none => coAuthors
  | some a =>
    match a.name, a.email with
    | some n, some e =>
      if n ≠ "" ∧ e ≠ "" then
        let authorLine := "Co-authored-by: " ++ n ++ " <" ++ e ++ ">"
        if coAuthors.contains authorLine then coAuthors
        else coAuthors ++ [authorLine]
      else coAuthors
    | _, _ => coAuthors

/-- Co-author lines collected from the commits in order, deduplicated by exact
line value keeping the first occurrence; commits lacking a (non-empty) author
name or email contribute nothing. -/
def coAuthorLines (commits : List CommitData) : List String :=
  commits.foldl coAuthorStep []

/-- Title of a squash commit. -/
def squashCommitTitle (prTitle : String) (prNumber : Nat) : String :=
  prTitle ++ " (#" ++ toString prNumber ++ ")"

/-- Body of a squash commit: blank-line-separated blocks of commit bullets,
co-author lines and the additional metadata, the first two omitted entirely
when empty. -/
def squashCommitBody (commits : List CommitData) (additionalMessages : String) : String :=
  let commitTitles := commitBullets commits
  let coAuthors := coAuthorLines commits
  let bodyParts : List String :=
    (if commitTitles.isEmpty then [] else [String.intercalate "\n" commitTitles]) ++
    (if coAuthors.isEmpty then [] else [String.intercalate "\n" coAuthors]) ++
    [additionalMessages]
  String.intercalate "\n\n" bodyParts

/-! ## Concurrency-safe merge executor (`action.ts`, step 5) -/

/-- Outcome of the mergeability retry loop: either a TOCTOU abort with the
effects performed, or the final snapshot with the effects performed. -/
inductive RetryOutcome where
  | abortedRetry (effects : List Effect)
  | done (prData : PullRequestData) (effects : List Effect)
deriving Repr

/-- The bounded mergeability retry loop: while the snapshot still has the
pending tri-state and retries remain, sleep the configured interval, re-fetch,
and re-check the head SHA, aborting immediately on mismatch.  `fuel` is the
remaining retry budget and `idx` the next fetch index. -/
def retryLoop (env : ApiEnv) (intervalMs : Nat) (originalHeadSha : String) :
    Nat → Nat → PullRequestData → RetryOutcome
  | 0, _, prData => .done prData []
  | fuel + 1, idx, prData =>
    if prData.mergeable = none then
      let prData2 := env.fetchPR idx
      let effs := [Effect.sleep intervalMs, Effect.fetchPR idx]
      if prData2.headSha ≠ originalHeadSha then
        .abortedRetry (effs ++
          [Effect.postComment (newCommitsDuringRetryComment originalHeadSha prData2.headSha)])
      else
        match retryLoop env intervalMs originalHeadSha fuel (idx + 1) prData2 with
        | .abortedRetry e => .abortedRetry (effs ++ e)
        | .done p e => .done p (effs ++ e)
    else .done prData []

/-- Step 5 of `executeAction`: TOCTOU re-fetch, mergeability retry loop, final
mergeability gate, commit message composition and the merge call itself.
`prDataChecked` is the snapshot the check-aggregation pass used. -/
def mergePhase (env : ApiEnv) (ctx : EventContext) (config : ActionConfig)
    (approvalOverridden : Bool) (mergeMethodResult : MergeMethodResult)
    (prDataChecked : PullRequestData) : ActionResult × List Effect :=
  let originalHeadSha := prDataChecked.headSha
  let prData := env.fetchPR 1
  let effs : List Effect := [Effect.fetchPR 1]
  if prData.headSha ≠ originalHeadSha then
    ({ status := .failed, message := "TOCTOU violation" },
      effs ++ [Effect.postComment (newCommitsComment originalHeadSha prData.headSha)])
  else
    match retryLoop env (config.mergeableRetryInterval * 1000) originalHeadSha
      config.mergeableRetryCount 2 prData with
    | .abortedRetry loopEffs =>
      ({ status := .failed, message := "TOCTOU violation during retry" }, effs ++ loopEffs)
    | .done prFinal loopEffs =>
      let effs2 := effs ++ loopEffs
      if prFinal.mergeable == some false || prFinal.mergeable == none ||
          prFinal.mergeableState != "clean" then
        let errorComment :=
          if prFinal.mergeable = none then
            pendingComment prFinal.mergeableState config.mergeableRetryCount
              config.mergeableRetryInterval
          else if prFinal.mergeableState = "dirty" then
            conflictsComment prFinal.mergeable prFinal.mergeableState
          else
            cannotMergeComment prFinal.mergeable prFinal.mergeableState
        ({ status := .failed, message := "Not mergeable" },
          effs2 ++ [Effect.postComment errorComment])
      else
        let additionalMessages := additionalMessagesFor ctx.actor approvalOverridden
        let composed : String × String × List Effect :=
          match mergeMethodResult.method with
          | .merge =>
            ("Merge pull request #" ++ toString ctx.prNumber ++ " from " ++ prFinal.headRef,
             prFinal.title ++ "\n\n" ++ additionalMessages, effs2)
          | .squash =>
            (squashCommitTitle prFinal.title ctx.prNumber,
             squashCommitBody env.commits additionalMessages,
             effs2 ++ [Effect.fetchCommits])
        let commitTitle := composed.1
        let commitBody := composed.2.1
        let effs3 := composed.2.2 ++
          [Effect.mergeCall mergeMethodResult.method originalHeadSha commitTitle commitBody]
        if !env.mergeResult.success then
          ({ status := .failed, message := "Merge failed: " ++ env.mergeResult.error },
            effs3 ++ [Effect.postComment (mergeFailedComment env.mergeResult.error)])
        else
          ({ status := .merged, message := "PR merged successfully",
             mergeMethod := some mergeMethodResult.method },
            effs3 ++ [Effect.postComment (mergedComment mergeMethodResult.method
              prFinal.baseRef prFinal.headRef originalHeadSha env.mergeResult.mergeCommitSha)])

/-- The main orchestration function (`executeAction` in `action.ts`), returning
the action result together with the ordered trace of effects performed. -/
def executeAction (env : ApiEnv) (ctx : EventContext) (config : ActionConfig) :
    ActionResult × List Effect :=
  if ctx.eventName ≠ "issue_comment" then
    ({ status := .skipped, message := "This action only runs on issue_comment events" }, [])
  else if !ctx.isPullRequest then
    ({ status := .skipped, message := "Comment is not on a PR, skipping" }, [])
  else if isBot ctx.userType then
    ({ status := .skipped, message := "Comment is from a bot" }, [])
  else if !hasBotMention ctx.commentBody then
    ({ status := .skipped, message := "Command not matched" }, [])
  else
    let effs0 : List Effect := [Effect.addReaction "eyes"]
    match parseCommand ctx.commentBody with
    | none =>
      ({ status := .skipped, message := "Command not recognized" },
        effs0 ++ [Effect.postComment (unrecognizedCommandComment (commentUrlOf ctx))])
    | some mergeOptions =>
      if !hasValidAuthorAssociation ctx.authorAssociation then
        ({ status := .failed, message := "Invalid author association" },
          effs0 ++ [Effect.postComment (permissionDeniedAssociationComment ctx.authorAssociation)])
      else
        let permission := env.permission ctx.actor
        let effs1 := effs0 ++ [Effect.getPermission ctx.actor]
        if !hasValidPermission permission then
          ({ status := .failed, message := "Insufficient permissions" },
            effs1 ++ [Effect.postComment
              (permissionDeniedLevelComment ctx.authorAssociation permission)])
        else
          let prData := env.fetchPR 0
          let effs2 := effs1 ++ [Effect.fetchPR 0]
          if prData.isFork then
            ({ status := .failed, message := "Fork PR not supported" },
              effs2 ++ [Effect.postComment forkComment])
          else if prData.merged then
            ({ status := .already_merged, message := "PR already merged" },
              effs2 ++ [Effect.postComment alreadyMergedComment])
          else
            let effs3 := effs2 ++ [Effect.countThreads]
            let racc := processReviews env prData.author prData.headSha env.approvedReviews
            let effs4 := effs3 ++ [Effect.fetchReviews] ++ racc.effects
            let effs5 := effs4 ++
              (if racc.dismissFailures.isEmpty then []
               else [Effect.postComment (staleDismissFailuresComment racc.dismissFailures)])
            let approvalOverridden :=
              approvalOverriddenOf racc.validApprovals mergeOptions.overrideApprovalRequirement
            let checks := buildChecks prData env.unresolvedCount racc.validApprovals
              mergeOptions.overrideApprovalRequirement
            let checksMarkdown := buildCheckResultsMarkdown checks
            let mergeMethodResult := determineMergeMethod prData.headRef prData.baseRef config
            let allPassed := mergeGatePassed checks
            if !allPassed then
              ({ status := .failed, message := "Merge checks failed" },
                effs5 ++ [Effect.postComment
                  (mergeChecksFailedComment checksMarkdown mergeMethodResult)])
            else
              let effs6 := effs5 ++ [Effect.postComment
                (mergeChecksPassedComment checksMarkdown mergeMethodResult)]
              let phase := mergePhase env ctx config approvalOverridden mergeMethodResult prData
              (phase.1, effs6 ++ phase.2)

/-! ## Entry point and configuration parsing (mirrors `src/main.ts`) -/

/-- Value of a run of decimal digits. -/
def digitsToNat (ds : List Char) : Nat :=
  ds.foldl (fun n c => n * 10 + (c.toNat - '0'.toNat)) 0

/-- JavaScript `parseInt(s, 10)`: skip leading whitespace, an optional sign,
then the longest prefix of decimal digits; `NaN` (here `none`) when that
prefix is empty.  (For inputs whose value exceeds the double-precision safe
range JavaScript would round the value; the validated ranges below make the
distinction irrelevant, and theorems about the reported value restrict to the
safe range.) -/
def jsParseInt10 (s : String) : Option Int :=
  let cs := s.toList.dropWhile isJsWhitespace
  let signed : Int × List Char :=
    match cs with
    | '-' :: r => (-1, r)
    | '+' :: r => (1, r)
    | r => (1, r)
  let digits := signed.2.takeWhile Char.isDigit
  if digits.isEmpty then none
  else some (signed.1 * Int.ofNat (digitsToNat digits))

/-- The effective `mergeable-retry-count` input (`core.getInput(...) || '5'`). -/
def retryCountInputOf (getInput : String → String) : String :=
  if getInput "mergeable-retry-count" = "" then "5"
  else getInput "mergeable-retry-count"

/-- The effective `mergeable-retry-interval` input (`core.getInput(...) || '10'`). -/
def retryIntervalInputOf (getInput : String → String) : String :=
  if getInput "mergeable-retry-interval" = "" then "10"
  else getInput "mergeable-retry-interval"

/-- Error for a non-numeric retry count. -/
def retryCountNaNMessage (input : String) : String :=
  "Invalid mergeable-retry-count: \"" ++ input ++
    "\" is not a valid integer. Must be between 1 and 20."

/-- Error for an out-of-range retry count. -/
def retryCountRangeMessage (value : Int) : String :=
  "Invalid mergeable-retry-count: " ++ toString value ++
    " is out of range. Must be between 1 and 20."

/-- Error for a non-numeric retry interval. -/
def retryIntervalNaNMessage (input : String) : String :=
  "Invalid mergeable-retry-interval: \"" ++ input ++
    "\" is not a valid integer. Must be between 1 and 60."

/-- Error for an out-of-range retry interval. -/
def retryIntervalRangeMessage (value : Int) : String :=
  "Invalid mergeable-retry-interval: " ++ toString value ++
    " is out of range. Must be between 1 and 60."

/-- Parses and validates the action configuration (`parseConfig` in `main.ts`).
A thrown `Error` is modelled as `Except.error` carrying its message. -/
def parseConfig (getInput : String → String) : Except String ActionConfig :=
  let retryCountInput := retryCountInputOf getInput
  let retryIntervalInput := retryIntervalInputOf getInput
  match jsParseInt10 retryCountInput with
  | none => .error (retryCountNaNMessage retryCountInput)
  | some mergeableRetryCount =>
    if mergeableRetryCount < 1 ∨ mergeableRetryCount > 20 then
      .error (retryCountRangeMessage mergeableRetryCount)
    else
      match jsParseInt10 retryIntervalInput with
      | none => .error (retryIntervalNaNMessage retryIntervalInput)
      | some mergeableRetryInterval =>
        if mergeableRetryInterval < 1 ∨ mergeableRetryInterval > 60 then
          .error (retryIntervalRangeMessage mergeableRetryInterval)
        else
          .ok { releaseBranchPrefix :=
                  if getInput "release-branch-prefix" = "" then "release/"
                  else getInput "release-branch-prefix",
                developBranch :=
                  if getInput "develop-branch" = "" then "develop"
                  else getInput "develop-branch",
                syncBranchPrefix :=
                  if getInput "sync-branch-prefix" = "" then "fix/sync/"
                  else getInput "sync-branch-prefix",
                mergeableRetryCount := mergeableRetryCount.toNat,
                mergeableRetryInterval := mergeableRetryInterval.toNat }

/-- The default configuration, all inputs left empty. -/
def defaultActionConfig : ActionConfig :=
  { releaseBranchPrefix := "release/", developBranch := "develop",
    syncBranchPrefix := "fix/sync/", mergeableRetryCount := 5,
    mergeableRetryInterval := 10 }

/-- Outcome of `run`: the `core.setFailed` message if the catch block fired,
the action result otherwise, and the remote effects performed. -/
structure RunOutcome where
  failedMessage : Option String
  result : Option ActionResult
  effects : List Effect
deriving Repr

/-- The entry point (`run` in `main.ts`): read the token (the `required`
option of `@actions/core` throws on a missing input, modelled with the
message that library produces), parse the configuration, and only then create
the client and execute the action; a thrown error is caught and reported via
`core.setFailed` with the prefix `nylbot-merge action failed: `.  Building
the event context from the raw payload is pure and is modelled by taking the
`EventContext` directly. -/
def run (getInput : String → String) (env : ApiEnv) (ctx : EventContext) : RunOutcome :=
  if getInput "github-token" = "" then
    { failedMessage := some "nylbot-merge action failed: Input required and not supplied: github-token",
      result := none, effects := [] }
  else
    match parseConfig getInput with
    | .error message =>
      { failedMessage := some ("nylbot-merge action failed: " ++ message),
        result := none, effects := [] }
    | .ok config =>
      let r := executeAction env ctx config
      { failedMessage := none, result := some r.1, effects := r.2 }

/-! ## Specification-side helpers used only to state the claims -/

/-- Declarative characterization of a review that the reconciliation loop
counts as a valid approval: the reviewer is not the PR author, has a login,
holds a sufficient permission, and the review sits on the current head SHA. -/
def validApprovalSpec (env : ApiEnv) (prAuthor headSha : String) (r : Review) : Bool :=
  match r.userLogin with
  | none => false
  | some l =>
    !(l == prAuthor) && hasValidPermission (env.permission l) && r.commitId == some headSha

/-- Declarative characterization of a stale review: it passes the author,
login and permission filters but sits on a non-current SHA. -/
def staleReviewSpec (env : ApiEnv) (prAuthor headSha : String) (r : Review) : Bool :=
  match r.userLogin with
  | none => false
  | some l =>
    !(l == prAuthor) && hasValidPermission (env.permission l) && !(r.commitId == some headSha)

/-- Deduplication keeping the first occurrence of each element, the canonical
specification against which the accumulator-based co-author collection is
verified. -/
def dedupKeepFirst : List String → List String
  | [] => []
  | x :: xs => x :: dedupKeepFirst (xs.filter (fun y => y ≠ x))
termination_by l => l.length
decreasing_by
  simp only [List.length_cons]
  exact Nat.lt_succ_of_le (List.length_filter_le _ _)

/-- Declarative form of the bullet a commit contributes: `none` when its
first message line is empty. -/
def bulletOptOf (c : CommitData) : Option String :=
  let firstLine := (c.message.splitOn "\n").headD ""
  if firstLine = "" then none else some ("* " ++ firstLine)

/-- The co-author line a commit contributes, when it carries a non-empty
author name and email. -/
def coAuthorLineOf (c : CommitData) : Option String :=
  match c.author with
  | none => none
  | some a =>
    match a.name, a.email with
    | some n, some e =>
      if n ≠ "" ∧ e ≠ "" then some ("Co-authored-by: " ++ n ++ " <" ++ e ++ ">")
      else none
    | _, _ => none

/-! ## Auxiliary definitions: specification-side helpers, trace shapes and
concrete fixtures used by the theorems below -/

/-- One step of the generic first-occurrence dedup fold. -/
def dedupStep (seen : List String) (l : String) : List String :=
  if seen.contains l then seen else seen ++ [l]

/-- A fork snapshot used by the C9 witness. -/
def witnessForkPR : PullRequestData :=
  { state := "open", locked := false, draft := false, merged := false,
    mergeable := some true, mergeableState := "clean", headSha := "abc1234567",
    headRef := "feat/x", baseRef := "develop", author := "author1",
    isFork := true, title := "feat: add x" }

/-- The triggering context used by the concrete witnesses. -/
def witnessCtx : EventContext :=
  { owner := "octo", repo := "repo", prNumber := 7, commentId := 42,
    commentBody := "/nylbot merge", actor := "alice", userType := "User",
    authorAssociation := "OWNER", serverUrl := "https://github.com",
    runId := 1, eventName := "issue_comment", isPullRequest := true }

/-- The environment used by the C9 witness. -/
def witnessForkEnv : ApiEnv :=
  { permission := fun _ => "admin", fetchPR := fun _ => witnessForkPR,
    unresolvedCount := 0, approvedReviews := [], dismissOk := fun _ => true,
    commits := [], mergeResult := { success := true, error := "", mergeCommitSha := none } }

/-- The environment used by the C10 witness. -/
def witnessMergedEnv : ApiEnv :=
  { witnessForkEnv with
    fetchPR := fun _ => { witnessForkPR with isFork := false, merged := true } }

/-- Inputs with an invalid retry count, used by the C8 witness. -/
def witnessBadInputs : String → String := fun name =>
  if name = "github-token" then "token"
  else if name = "mergeable-retry-count" then "not-a-number"
  else ""

/-- The dismissal-failure lines contributed by one review: exactly one line
when the review is stale and its dismissal fails, none otherwise. -/
def dismissFailureContribution (env : ApiEnv) (prAuthor headSha : String)
    (r : Review) : List String :=
  match r.userLogin with
  | none => []
  | some l =>
    if staleReviewSpec env prAuthor headSha r && !env.dismissOk r.id then
      [dismissFailureLine l]
    else []

/-- The permission cache only memoizes the remote permission map. -/
def cacheConsistent (env : ApiEnv) (cache : List (String × String)) : Prop :=
  ∀ l p, cache.lookup l = some p → p = env.permission l

/-- Environment with a single stale review, used by the C6 witness. -/
def witnessStaleEnv : ApiEnv :=
  { witnessForkEnv with
    approvedReviews := [{ id := 9, userLogin := some "carol", commitId := some "old1234567" }],
    dismissOk := fun _ => false }

/-- The trace of `k` rounds of the retry loop starting at fetch index `idx`:
a sleep of `d` milliseconds immediately before each consecutive re-fetch. -/
def retryTrace (d : Nat) : Nat → Nat → List Effect
  | _, 0 => []
  | idx, k + 1 => [Effect.sleep d, Effect.fetchPR idx] ++ retryTrace d (idx + 1) k

/-- The effects `executeAction` performs before entering the merge phase on
the all-checks-passed path: reaction, actor permission lookup, initial fetch,
thread count, review listing, the review-loop effects, the optional
dismissal-failure warning, and the checks-passed comment. -/
def prePhaseEffects (env : ApiEnv) (ctx : EventContext) (config : ActionConfig)
    (opts : MergeOptions) : List Effect :=
  let prData := env.fetchPR 0
  let racc := processReviews env prData.author prData.headSha env.approvedReviews
  let checks := buildChecks prData env.unresolvedCount racc.validApprovals
    opts.overrideApprovalRequirement
  let mergeMethodResult := determineMergeMethod prData.headRef prData.baseRef config
  [Effect.addReaction "eyes", Effect.getPermission ctx.actor, Effect.fetchPR 0,
   Effect.countThreads, Effect.fetchReviews] ++ racc.effects ++
  (if racc.dismissFailures.isEmpty then []
   else [Effect.postComment (staleDismissFailuresComment racc.dismissFailures)]) ++
  [Effect.postComment
    (mergeChecksPassedComment (buildCheckResultsMarkdown checks) mergeMethodResult)]

/-- A clean, validated snapshot used by the C2/C3 witnesses. -/
def witnessCleanPR : PullRequestData :=
  { witnessForkPR with isFork := false }

/-- Environment whose pre-merge re-fetch sees a different head SHA. -/
def witnessToctouEnv : ApiEnv :=
  { permission := fun _ => "admin",
    fetchPR := fun n => if n = 0 then witnessCleanPR
      else { witnessCleanPR with headSha := "zzz9999999" },
    unresolvedCount := 0,
    approvedReviews := [{ id := 1, userLogin := some "bob", commitId := some "abc1234567" }],
    dismissOk := fun _ => true,
    commits := [],
    mergeResult := { success := true, error := "", mergeCommitSha := none } }

/-- The not-mergeable comment the executor posts, by mergeable state. -/
def notMergeableComment (prF : PullRequestData) (config : ActionConfig) : String :=
  if prF.mergeable = none then
    pendingComment prF.mergeableState config.mergeableRetryCount
      config.mergeableRetryInterval
  else if prF.mergeableState = "dirty" then
    conflictsComment prF.mergeable prF.mergeableState
  else cannotMergeComment prF.mergeable prF.mergeableState

/-- Environment whose second fetch still has mergeability pending and whose
third fetch is clean, with no concurrent pushes. -/
def witnessRetryEnv : ApiEnv :=
  { witnessToctouEnv with
    fetchPR := fun n =>
      if n = 1 then { witnessCleanPR with mergeable := none, mergeableState := "unknown" }
      else witnessCleanPR }

/-! ## Claim C1: merge method precedence -/

/-- C1: for every pair of branch names and every configuration,
`determineMergeMethod` is a pure total function (it is a Lean function) whose
result is `squash` exactly when neither head-branch rule fires and one of the
two base-branch rules does — head rules (release prefix, sync prefix) take
precedence and yield `merge`, the base rule for the develop branch is an exact
match, and the default is `merge`.  In particular
`("release/1.0.0", "develop")` yields `merge` under the default configuration:
the head rule wins over the base rule. -/
theorem determineMergeMethod_precedence :
    (∀ (headRef baseRef : String) (config : ActionConfig),
      ((determineMergeMethod headRef baseRef config).method = MergeMethod.squash ↔
        (jsStartsWith headRef config.releaseBranchPrefix = false ∧
         jsStartsWith headRef config.syncBranchPrefix = false ∧
         (jsStartsWith baseRef config.releaseBranchPrefix = true ∨
          baseRef = config.developBranch)))) ∧
    (determineMergeMethod "release/1.0.0" "develop" defaultActionConfig).method =
      MergeMethod.merge := by
  constructor
  · intro headRef baseRef config
    simp only [determineMergeMethod]
    split_ifs with h1 h2 h3 h4 <;> simp_all
  · decide

/-! ## Claim C4: check list order and the merge gate -/

/-- C4: the aggregated check list is, in this fixed order: readiness,
conversations-resolved, approval, mergeable-state-clean, conventional-title;
the conventional-title check is always optional; and the merge gate passes
exactly when every non-optional entry passed (optional failures never block). -/
theorem buildChecks_order_and_gate :
    ∀ (prData : PullRequestData) (unresolvedCount validApprovals : Nat)
      (overrideFlag : Bool),
      (buildChecks prData unresolvedCount validApprovals overrideFlag).map
          CheckResult.name =
        ["PR is ready for review",
         "All review conversations are resolved",
         "At least one valid approval from another user",
         "Mergeable state is clean",
         "PR title follows [Conventional Commits](https://www.conventionalcommits.org/)"] ∧
      (buildChecks prData unresolvedCount validApprovals overrideFlag).drop 4 =
        [conventionalCommitsCheckOf prData.title] ∧
      (conventionalCommitsCheckOf prData.title).optional = true ∧
      (mergeGatePassed (buildChecks prData unresolvedCount validApprovals overrideFlag) = true ↔
        ∀ c ∈ buildChecks prData unresolvedCount validApprovals overrideFlag,
          c.optional = false → c.passed = true) := by
  intro prData unresolvedCount validApprovals overrideFlag
  refine ⟨?_, ?_, rfl, ?_⟩
  · simp [buildChecks, validatePRState, threadsCheckOf, approvalCheckOf,
      mergeableStateCheckOf, conventionalCommitsCheckOf]
  · simp [buildChecks, validatePRState]
  · simp only [mergeGatePassed, List.all_eq_true, List.mem_filter]
    constructor
    · intro h c hc hopt
      exact h c ⟨hc, by simp [hopt]⟩
    · intro h c hc
      exact h c hc.1 (by simpa using hc.2)

/-! ## Claim C5: the approval override flag -/

/-- C5: the approval check is optional exactly when the override flag was
supplied and there were zero valid approvals; with at least one valid approval
the flag is inert — the check stays required, passes, and carries no details
(in particular no override wording). -/
theorem approvalCheck_override_semantics :
    ∀ (validApprovals : Nat) (overrideFlag : Bool),
      ((approvalCheckOf validApprovals overrideFlag).optional = true ↔
        (overrideFlag = true ∧ validApprovals = 0)) ∧
      (1 ≤ validApprovals →
        (approvalCheckOf validApprovals overrideFlag).optional = false ∧
        (approvalCheckOf validApprovals overrideFlag).passed = true ∧
        (approvalCheckOf validApprovals overrideFlag).details = none) := by
  intro validApprovals overrideFlag
  constructor
  · simp [approvalCheckOf, approvalOverriddenOf, Nat.lt_one_iff]
  · intro h
    simp [approvalCheckOf, approvalOverriddenOf, h]

/-- Witness for C5 at a concrete input with a valid approval present. -/
theorem approvalCheck_override_semantics_witness :
    (approvalCheckOf 2 true).optional = false ∧
    (approvalCheckOf 2 true).passed = true ∧
    (approvalCheckOf 2 true).details = none :=
  (approvalCheck_override_semantics 2 true).2 (by decide)

/-! ## Claim C7: squash commit message composition -/

/-- A co-author step either contributes the line of the commit or nothing. -/
lemma coAuthorStep_eq (acc : List String) (c : CommitData) :
    coAuthorStep acc c =
      match coAuthorLineOf c with
      | none => acc
      | some l => dedupStep acc l := by
  cases hc : c.author with
  | none => simp [coAuthorStep, coAuthorLineOf, hc]
  | some a =>
    cases hn : a.name with
    | none => simp [coAuthorStep, coAuthorLineOf, hc, hn]
    | some n =>
      cases he : a.email with
      | none => simp [coAuthorStep, coAuthorLineOf, hc, hn, he]
      | some e =>
        by_cases hne : n ≠ "" ∧ e ≠ "" <;>
          simp [coAuthorStep, coAuthorLineOf, dedupStep, hc, hn, he, hne]

/-- The co-author collection is the dedup fold of the per-commit lines. -/
lemma coAuthorLines_eq_foldl_lines (commits : List CommitData) :
    coAuthorLines commits = (commits.filterMap coAuthorLineOf).foldl dedupStep [] := by
  suffices h : ∀ (cs : List CommitData) (acc : List String),
      cs.foldl coAuthorStep acc = (cs.filterMap coAuthorLineOf).foldl dedupStep acc from
    h commits []
  intro cs
  induction cs with
  | nil => intro acc; rfl
  | cons c cs ih =>
    intro acc
    rw [List.foldl_cons, List.filterMap_cons, coAuthorStep_eq]
    cases hc : coAuthorLineOf c with
    | none => exact ih acc
    | some l => exact ih (dedupStep acc l)

/-- Unfolding equation of `dedupKeepFirst` on a cons cell. -/
lemma dedupKeepFirst_cons (x : String) (l : List String) :
    dedupKeepFirst (x :: l) = x :: dedupKeepFirst (l.filter (fun y => y ≠ x)) := by
  rw [dedupKeepFirst]

/-- The accumulator-based dedup fold equals filtering the already-seen
elements and deduplicating the rest, keeping first occurrences. -/
lemma dedup_foldl_eq (ls : List String) :
    ∀ acc : List String,
      ls.foldl dedupStep acc = acc ++ dedupKeepFirst (ls.filter (fun l => !acc.contains l)) := by
  induction ls with
  | nil => intro acc; simp [dedupKeepFirst]
  | cons x xs ih =>
    intro acc
    rw [List.foldl_cons, List.filter_cons]
    by_cases hx : acc.contains x
    · rw [dedupStep, if_pos hx, ih acc]
      have hxm : x ∈ acc := by simpa using hx
      simp [hxm]
    · rw [dedupStep, if_neg hx, ih (acc ++ [x])]
      simp only [hx, Bool.not_false, if_pos]
      have hfilter : (xs.filter (fun l => !(acc ++ [x]).contains l)) =
          ((xs.filter (fun l => !acc.contains l)).filter (fun y => y ≠ x)) := by
        rw [List.filter_filter]
        apply List.filter_congr
        intro l _
        simp [not_or, eq_comm, Bool.and_comm]
      rw [hfilter, List.append_assoc, dedupKeepFirst_cons]
      rfl

/-- The co-author lines are the per-commit lines in commit order,
deduplicated keeping the first occurrence. -/
lemma coAuthorLines_eq_dedupKeepFirst (commits : List CommitData) :
    coAuthorLines commits = dedupKeepFirst (commits.filterMap coAuthorLineOf) := by
  rw [coAuthorLines_eq_foldl_lines, dedup_foldl_eq]
  simp

/-- A bullet line is never the empty string. -/
lemma bullet_ne_empty (s : String) : ("* " ++ s) ≠ "" := by
  intro h
  have h2 := congrArg String.data h
  rw [String.data_append] at h2
  simp [String.data] at h2

/-- The declarative bullet is determined by the rendered bullet. -/
lemma bulletOptOf_eq (c : CommitData) :
    bulletOptOf c = if bulletOf c = "" then none else some (bulletOf c) := by
  simp only [bulletOptOf, bulletOf]
  generalize (c.message.splitOn "\n").headD "" = fl
  by_cases h : fl = ""
  · simp [h]
  · simp [h, bullet_ne_empty]

/-- The bullet list is the filterMap of first lines over the commits. -/
lemma commitBullets_eq_filterMap (commits : List CommitData) :
    commitBullets commits = commits.filterMap bulletOptOf := by
  induction commits with
  | nil => rfl
  | cons c cs ih =>
    simp only [commitBullets] at ih
    rw [commitBullets, List.map_cons, List.filter_cons, List.filterMap_cons, bulletOptOf_eq]
    by_cases h : bulletOf c = ""
    · rw [if_pos h, h]
      simpa using ih
    · rw [if_neg h]
      simpa [h] using ih

/-- C7: for the squash strategy the commit title is `<PR title> (#<N>)` and
the body is the blank-line-separated concatenation of up to three blocks,
each omitted entirely when empty: the per-commit first-line bullets in
commit order with empty first lines skipped, the co-author lines (one per
commit carrying both name and email, deduplicated by exact value keeping the
first occurrence, in commit order), and the additional metadata block; the
Bob/Alice/Bob example yields the lines Bob then Alice with Bob only once. -/
theorem squashMessage_composition :
    ∀ (commits : List CommitData) (prTitle : String) (prNumber : Nat)
      (additionalMessages : String),
      squashCommitTitle prTitle prNumber = prTitle ++ " (#" ++ toString prNumber ++ ")" ∧
      commitBullets commits = commits.filterMap bulletOptOf ∧
      coAuthorLines commits = dedupKeepFirst (commits.filterMap coAuthorLineOf) ∧
      squashCommitBody commits additionalMessages = String.intercalate "\n\n"
        ((if commitBullets commits = [] then []
          else [String.intercalate "\n" (commitBullets commits)]) ++
         (if coAuthorLines commits = [] then []
          else [String.intercalate "\n" (coAuthorLines commits)]) ++
         [additionalMessages]) ∧
      coAuthorLines
        [{ message := "m1", author := some { name := some "Bob", email := some "bob@example.com" } },
         { message := "m2", author := some { name := some "Alice", email := some "alice@example.com" } },
         { message := "m3", author := some { name := some "Bob", email := some "bob@example.com" } }] =
        ["Co-authored-by: Bob <bob@example.com>", "Co-authored-by: Alice <alice@example.com>"] := by
  intro commits prTitle prNumber additionalMessages
  refine ⟨rfl, commitBullets_eq_filterMap commits,
    coAuthorLines_eq_dedupKeepFirst commits, ?_, by decide⟩
  simp only [squashCommitBody, List.isEmpty_iff]

/-! ## Claims C9 and C10: early exits after the first fetch -/

/-- C9: when the fetched snapshot is a fork PR, the action fails with
"Fork PR not supported" immediately after the first fetch: the full effect
trace is the reaction, the actor permission lookup, the single fetch and the
explanatory comment — so no validation check runs, no approval is reconciled,
and the merge call is never issued. -/
theorem fork_pr_rejected_early :
    ∀ (env : ApiEnv) (ctx : EventContext) (config : ActionConfig) (opts : MergeOptions),
      ctx.eventName = "issue_comment" →
      ctx.isPullRequest = true →
      isBot ctx.userType = false →
      hasBotMention ctx.commentBody = true →
      parseCommand ctx.commentBody = some opts →
      hasValidAuthorAssociation ctx.authorAssociation = true →
      hasValidPermission (env.permission ctx.actor) = true →
      (env.fetchPR 0).isFork = true →
      executeAction env ctx config =
        ({ status := .failed, message := "Fork PR not supported" },
         [Effect.addReaction "eyes", Effect.getPermission ctx.actor, Effect.fetchPR 0,
          Effect.postComment forkComment]) := by
  intro env ctx config opts h1 h2 h3 h4 h5 h6 h7 h8
  simp [executeAction, h1, h2, h3, h4, h5, h6, h7, h8]

/-- Witness for C9 at a concrete fork PR. -/
theorem fork_pr_rejected_early_witness :
    executeAction witnessForkEnv witnessCtx defaultActionConfig =
      ({ status := .failed, message := "Fork PR not supported" },
       [Effect.addReaction "eyes", Effect.getPermission "alice", Effect.fetchPR 0,
        Effect.postComment forkComment]) :=
  fork_pr_rejected_early witnessForkEnv witnessCtx defaultActionConfig
    { overrideApprovalRequirement := false }
    rfl rfl (by decide) (by decide) (by decide) (by decide) (by decide) rfl

/-- C10: when the fetched snapshot is already merged (and not a fork), the
action returns `already_merged` right after posting the informational
comment: the full effect trace is the reaction, the actor permission lookup,
the single fetch and the comment — no validation check runs and no merge call
is issued. -/
theorem already_merged_short_circuit :
    ∀ (env : ApiEnv) (ctx : EventContext) (config : ActionConfig) (opts : MergeOptions),
      ctx.eventName = "issue_comment" →
      ctx.isPullRequest = true →
      isBot ctx.userType = false →
      hasBotMention ctx.commentBody = true →
      parseCommand ctx.commentBody = some opts →
      hasValidAuthorAssociation ctx.authorAssociation = true →
      hasValidPermission (env.permission ctx.actor) = true →
      (env.fetchPR 0).isFork = false →
      (env.fetchPR 0).merged = true →
      executeAction env ctx config =
        ({ status := .already_merged, message := "PR already merged" },
         [Effect.addReaction "eyes", Effect.getPermission ctx.actor, Effect.fetchPR 0,
          Effect.postComment alreadyMergedComment]) := by
  intro env ctx config opts h1 h2 h3 h4 h5 h6 h7 h8 h9
  simp [executeAction, h1, h2, h3, h4, h5, h6, h7, h8, h9]

/-- Witness for C10 at a concrete already-merged PR. -/
theorem already_merged_short_circuit_witness :
    executeAction witnessMergedEnv witnessCtx defaultActionConfig =
      ({ status := .already_merged, message := "PR already merged" },
       [Effect.addReaction "eyes", Effect.getPermission "alice", Effect.fetchPR 0,
        Effect.postComment alreadyMergedComment]) :=
  already_merged_short_circuit witnessMergedEnv witnessCtx defaultActionConfig
    { overrideApprovalRequirement := false }
    rfl rfl (by decide) (by decide) (by decide) (by decide) (by decide) rfl rfl

/-! ## Claim C8: configuration errors are fatal and free of side effects -/

/-- C8: when the retry-count input is not a valid integer or lies outside
1..20, or the retry-interval input is not a valid integer or lies outside
1..60, the run fails fatally before any remote call: the effect trace is
empty (no reaction, comment, or merge), and the reported message is the
corresponding `parseConfig` error, which spells out the offending value and
the valid range. -/
theorem config_error_fatal_no_side_effects :
    ∀ (getInput : String → String) (env : ApiEnv) (ctx : EventContext),
      getInput "github-token" ≠ "" →
      (jsParseInt10 (retryCountInputOf getInput) = none ∨
       (∃ v, jsParseInt10 (retryCountInputOf getInput) = some v ∧ (v < 1 ∨ 20 < v)) ∨
       jsParseInt10 (retryIntervalInputOf getInput) = none ∨
       (∃ v, jsParseInt10 (retryIntervalInputOf getInput) = some v ∧ (v < 1 ∨ 60 < v))) →
      ∃ message,
        run getInput env ctx =
          { failedMessage := some ("nylbot-merge action failed: " ++ message),
            result := none, effects := [] } ∧
        (message = retryCountNaNMessage (retryCountInputOf getInput) ∨
         (∃ v, jsParseInt10 (retryCountInputOf getInput) = some v ∧
           message = retryCountRangeMessage v) ∨
         message = retryIntervalNaNMessage (retryIntervalInputOf getInput) ∨
         (∃ v, jsParseInt10 (retryIntervalInputOf getInput) = some v ∧
           message = retryIntervalRangeMessage v)) := by
  intro getInput env ctx hTok hBad
  have main : ∃ m, parseConfig getInput = .error m ∧
      (m = retryCountNaNMessage (retryCountInputOf getInput) ∨
       (∃ v, jsParseInt10 (retryCountInputOf getInput) = some v ∧
         m = retryCountRangeMessage v) ∨
       m = retryIntervalNaNMessage (retryIntervalInputOf getInput) ∨
       (∃ v, jsParseInt10 (retryIntervalInputOf getInput) = some v ∧
         m = retryIntervalRangeMessage v)) := by
    simp only [parseConfig]
    cases h1 : jsParseInt10 (retryCountInputOf getInput) with
    | none => exact ⟨_, rfl, Or.inl rfl⟩
    | some v =>
      dsimp only
      by_cases hv : v < 1 ∨ v > 20
      · exact ⟨_, by rw [if_pos hv], Or.inr (Or.inl ⟨v, rfl, rfl⟩)⟩
      · rw [if_neg hv]
        cases h2 : jsParseInt10 (retryIntervalInputOf getInput) with
        | none => exact ⟨_, rfl, Or.inr (Or.inr (Or.inl rfl))⟩
        | some w =>
          dsimp only
          by_cases hw : w < 1 ∨ w > 60
          · exact ⟨_, by rw [if_pos hw], Or.inr (Or.inr (Or.inr ⟨w, rfl, rfl⟩))⟩
          · exfalso
            rcases hBad with hb | ⟨u, hu, hur⟩ | hb | ⟨u, hu, hur⟩
            · rw [h1] at hb; exact Option.noConfusion hb
            · rw [h1] at hu
              injection hu with e
              subst e
              exact hv hur
            · rw [h2] at hb; exact Option.noConfusion hb
            · rw [h2] at hu
              injection hu with e
              subst e
              exact hw hur
  obtain ⟨m, hm, hfam⟩ := main
  refine ⟨m, ?_, hfam⟩
  rw [run, if_neg hTok, hm]

/-- Witness for C8 at a concrete invalid input. -/
theorem config_error_fatal_no_side_effects_witness :
    ∃ message,
      run witnessBadInputs witnessForkEnv witnessCtx =
        { failedMessage := some ("nylbot-merge action failed: " ++ message),
          result := none, effects := [] } ∧
      (message = retryCountNaNMessage (retryCountInputOf witnessBadInputs) ∨
       (∃ v, jsParseInt10 (retryCountInputOf witnessBadInputs) = some v ∧
         message = retryCountRangeMessage v) ∨
       message = retryIntervalNaNMessage (retryIntervalInputOf witnessBadInputs) ∨
       (∃ v, jsParseInt10 (retryIntervalInputOf witnessBadInputs) = some v ∧
         message = retryIntervalRangeMessage v)) :=
  config_error_fatal_no_side_effects witnessBadInputs witnessForkEnv witnessCtx
    (by decide) (Or.inl (by decide))

/-! ## Claim C6: approval reconciliation -/

/-- Association lookup distributes over append. -/
lemma lookup_append (l₁ l₂ : List (String × String)) (a : String) :
    List.lookup a (l₁ ++ l₂) =
      match List.lookup a l₁ with
      | some p => some p
      | none => List.lookup a l₂ := by
  induction l₁ with
  | nil => simp [List.lookup]
  | cons x t ih =>
    obtain ⟨k, v⟩ := x
    rw [List.cons_append, List.lookup, List.lookup]
    cases hx : a == k
    · simpa [hx] using ih
    · simp [hx]

/-- Consistency is preserved by memoizing one more lookup result. -/
lemma cacheConsistent_insert (env : ApiEnv) (cache : List (String × String))
    (l : String) (hc : cacheConsistent env cache) :
    cacheConsistent env (cache ++ [(l, env.permission l)]) := by
  intro a p hp
  rw [lookup_append] at hp
  cases h1 : List.lookup a cache with
  | some q =>
    rw [h1] at hp
    cases hp
    exact hc a p h1
  | none =>
    rw [h1] at hp
    cases heq : a == l with
    | false =>
      simp [List.lookup, heq] at hp
    | true =>
      simp [List.lookup, heq] at hp
      have ha : a = l := by simpa using heq
      rw [ha, hp]

/-- Under a consistent cache, one iteration of the review loop is determined
by the declarative review classification: a valid approval bumps the tally, a
stale review is dismissed (contributing a failure line exactly when the
dismissal fails), anything else is skipped; the cache stays consistent and
the only new effects besides the dismissal are permission lookups. -/
lemma reviewStep_eq (env : ApiEnv) (prAuthor headSha : String) (acc : ReviewAcc)
    (r : Review) (hc : cacheConsistent env acc.cache) :
    ∃ (cache' : List (String × String)) (lookupEffs : List Effect),
      cacheConsistent env cache' ∧
      (∀ e ∈ lookupEffs, ∃ l, e = Effect.getPermission l) ∧
      reviewStep env prAuthor headSha acc r =
        (if validApprovalSpec env prAuthor headSha r then
          { validApprovals := acc.validApprovals + 1,
            dismissFailures := acc.dismissFailures,
            cache := cache', effects := acc.effects ++ lookupEffs }
        else if staleReviewSpec env prAuthor headSha r then
          { validApprovals := acc.validApprovals,
            dismissFailures :=
              acc.dismissFailures ++ dismissFailureContribution env prAuthor headSha r,
            cache := cache',
            effects := acc.effects ++ lookupEffs ++
              [Effect.dismissReview r.id (staleDismissMessage r.commitId headSha)] }
        else
          { validApprovals := acc.validApprovals,
            dismissFailures := acc.dismissFailures,
            cache := cache', effects := acc.effects ++ lookupEffs }) := by
  by_cases hself : r.userLogin = some prAuthor
  · refine ⟨acc.cache, [], hc, by simp, ?_⟩
    rw [reviewStep, if_pos hself]
    simp [validApprovalSpec, staleReviewSpec, hself]
  · cases hlogin : r.userLogin with
    | none =>
      refine ⟨acc.cache, [], hc, by simp, ?_⟩
      rw [reviewStep, if_neg hself, hlogin]
      simp [validApprovalSpec, staleReviewSpec, hlogin]
    | some l =>
      have hla : ¬(l == prAuthor) = true := by
        intro h
        exact hself (by rw [hlogin, show l = prAuthor from by simpa using h])
      obtain ⟨perm, cache', lookupEffs, hperm, hc', hshape, hstep⟩ :
          ∃ (perm : String) (cache' : List (String × String)) (lookupEffs : List Effect),
            perm = env.permission l ∧ cacheConsistent env cache' ∧
            (∀ e ∈ lookupEffs, ∃ l', e = Effect.getPermission l') ∧
            (match acc.cache.lookup l with
              | some p => (p, acc.cache, ([] : List Effect))
              | none =>
                (env.permission l, acc.cache ++ [(l, env.permission l)],
                  [Effect.getPermission l])) = (perm, cache', lookupEffs) := by
        cases hl : acc.cache.lookup l with
        | some p =>
          exact ⟨p, acc.cache, [], hc l p hl, hc, by simp, rfl⟩
        | none =>
          exact ⟨env.permission l, acc.cache ++ [(l, env.permission l)],
            [Effect.getPermission l], rfl, cacheConsistent_insert env acc.cache l hc,
            by simp, rfl⟩
      refine ⟨cache', lookupEffs, hc', hshape, ?_⟩
      rw [reviewStep, if_neg hself, hlogin]
      dsimp only
      rw [hstep]
      dsimp only
      by_cases hpv : hasValidPermission (env.permission l)
      · rw [if_neg (by rw [hperm]; simp [hpv])]
        by_cases hcid : r.commitId = some headSha
        · rw [if_neg (by simp [hcid])]
          have hv : validApprovalSpec env prAuthor headSha r = true := by
            simp [validApprovalSpec, hlogin, hla, hpv, hcid]
          rw [if_pos hv]
        · rw [if_pos (by simp [hcid])]
          have hv : validApprovalSpec env prAuthor headSha r = false := by
            simp [validApprovalSpec, hlogin, hcid]
          have hst : staleReviewSpec env prAuthor headSha r = true := by
            simp [staleReviewSpec, hlogin, hla, hpv, hcid]
          rw [if_neg (show ¬(validApprovalSpec env prAuthor headSha r = true) by
            simp [hv]), if_pos hst]
          have hcontrib : dismissFailureContribution env prAuthor headSha r =
              if env.dismissOk r.id then [] else [dismissFailureLine l] := by
            rw [dismissFailureContribution, hlogin, hst]
            by_cases hd : env.dismissOk r.id <;> simp [hd]
          by_cases hd : env.dismissOk r.id
          · rw [if_pos hd, hcontrib, if_pos hd]
            simp
          · rw [if_neg hd, hcontrib, if_neg hd]
      · rw [if_pos (by rw [hperm]; simp [hpv])]
        have hv : validApprovalSpec env prAuthor headSha r = false := by
          simp [validApprovalSpec, hlogin, hpv]
        have hst : staleReviewSpec env prAuthor headSha r = false := by
          simp [staleReviewSpec, hlogin, hpv]
        rw [hv, hst]
        simp

/-- A counted review is on the current head, so it is not stale. -/
lemma validApproval_not_stale (env : ApiEnv) (prAuthor headSha : String) (r : Review)
    (hv : validApprovalSpec env prAuthor headSha r = true) :
    staleReviewSpec env prAuthor headSha r = false := by
  cases hl : r.userLogin with
  | none => simp [staleReviewSpec, hl]
  | some l =>
    rw [validApprovalSpec, hl] at hv
    simp only [Bool.and_eq_true] at hv
    rw [staleReviewSpec, hl]
    simp [hv.2]

/-- A non-stale review contributes no dismissal-failure line. -/
lemma dismissFailureContribution_nil (env : ApiEnv) (prAuthor headSha : String)
    (r : Review) (h : staleReviewSpec env prAuthor headSha r = false) :
    dismissFailureContribution env prAuthor headSha r = [] := by
  rw [dismissFailureContribution]
  cases hl : r.userLogin with
  | none => rfl
  | some l => simp [h]

/-- Characterization of the full review loop from any consistent state: the
tally counts exactly the declaratively valid approvals, the failure lines are
the per-review contributions in order, the loop only adds permission lookups
and dismissal calls to the trace, every stale review has its dismissal call
in the trace, and the cache stays consistent. -/
lemma processReviews_foldl_char (env : ApiEnv) (prAuthor headSha : String) :
    ∀ (reviews : List Review) (acc : ReviewAcc), cacheConsistent env acc.cache →
      (reviews.foldl (reviewStep env prAuthor headSha) acc).validApprovals =
          acc.validApprovals + reviews.countP (validApprovalSpec env prAuthor headSha) ∧
      (reviews.foldl (reviewStep env prAuthor headSha) acc).dismissFailures =
          acc.dismissFailures ++
            reviews.flatMap (dismissFailureContribution env prAuthor headSha) ∧
      (∃ extra, (reviews.foldl (reviewStep env prAuthor headSha) acc).effects =
          acc.effects ++ extra ∧
          ∀ e ∈ extra, (∃ l, e = Effect.getPermission l) ∨
            (∃ i m, e = Effect.dismissReview i m)) ∧
      (∀ r ∈ reviews, staleReviewSpec env prAuthor headSha r = true →
        Effect.dismissReview r.id (staleDismissMessage r.commitId headSha) ∈
          (reviews.foldl (reviewStep env prAuthor headSha) acc).effects) ∧
      cacheConsistent env (reviews.foldl (reviewStep env prAuthor headSha) acc).cache := by
  intro reviews
  induction reviews with
  | nil =>
    intro acc hc
    exact ⟨by simp, by simp, ⟨[], by simp, by simp⟩, by simp, hc⟩
  | cons r rs ih =>
    intro acc hc
    obtain ⟨cache', lookupEffs, hc', hshape, hstep⟩ :=
      reviewStep_eq env prAuthor headSha acc r hc
    rw [List.foldl_cons, hstep]
    by_cases hv : validApprovalSpec env prAuthor headSha r
    · rw [if_pos hv]
      obtain ⟨ihv, ihd, ⟨extra, hex, hexshape⟩, ihm, ihc⟩ :=
        ih { validApprovals := acc.validApprovals + 1,
             dismissFailures := acc.dismissFailures,
             cache := cache', effects := acc.effects ++ lookupEffs } hc'
      have hst : staleReviewSpec env prAuthor headSha r = false :=
        validApproval_not_stale env prAuthor headSha r hv
      refine ⟨?_, ?_, ⟨lookupEffs ++ extra, ?_, ?_⟩, ?_, ihc⟩
      · rw [ihv]
        dsimp only
        rw [List.countP_cons]
        simp only [hv, if_pos]
        omega
      · rw [ihd]
        dsimp only
        rw [List.flatMap_cons, dismissFailureContribution_nil env prAuthor headSha r hst]
        simp
      · rw [hex]
        dsimp only
        rw [List.append_assoc]
      · intro e he
        rcases List.mem_append.mp he with h | h
        · exact Or.inl (hshape e h)
        · exact hexshape e h
      · intro r' hr' hstale
        rcases List.mem_cons.mp hr' with h | h
        · rw [h] at hstale
          rw [hstale] at hst
          exact absurd hst (by simp)
        · exact ihm r' h hstale
    · rw [if_neg hv]
      by_cases hst : staleReviewSpec env prAuthor headSha r
      · rw [if_pos hst]
        obtain ⟨ihv, ihd, ⟨extra, hex, hexshape⟩, ihm, ihc⟩ :=
          ih { validApprovals := acc.validApprovals,
               dismissFailures := acc.dismissFailures ++
                 dismissFailureContribution env prAuthor headSha r,
               cache := cache',
               effects := acc.effects ++ lookupEffs ++
                 [Effect.dismissReview r.id (staleDismissMessage r.commitId headSha)] } hc'
        refine ⟨?_, ?_,
          ⟨lookupEffs ++
            [Effect.dismissReview r.id (staleDismissMessage r.commitId headSha)] ++ extra,
            ?_, ?_⟩, ?_, ihc⟩
        · rw [ihv]
          dsimp only
          rw [List.countP_cons]
          simp only [hv]
          simp
        · rw [ihd]
          dsimp only
          rw [List.flatMap_cons, List.append_assoc]
        · rw [hex]
          dsimp only
          simp [List.append_assoc]
        · intro e he
          rcases List.mem_append.mp he with h | h
          · rcases List.mem_append.mp h with h2 | h2
            · exact Or.inl (hshape e h2)
            · exact Or.inr ⟨r.id, staleDismissMessage r.commitId headSha, by simpa using h2⟩
          · exact hexshape e h
        · intro r' hr' hstale
          rcases List.mem_cons.mp hr' with h | h
          · rw [hex]
            dsimp only
            rw [h]
            simp
          · exact ihm r' h hstale
      · rw [if_neg hst]
        obtain ⟨ihv, ihd, ⟨extra, hex, hexshape⟩, ihm, ihc⟩ :=
          ih { validApprovals := acc.validApprovals,
               dismissFailures := acc.dismissFailures,
               cache := cache', effects := acc.effects ++ lookupEffs } hc'
        refine ⟨?_, ?_, ⟨lookupEffs ++ extra, ?_, ?_⟩, ?_, ihc⟩
        · rw [ihv]
          dsimp only
          rw [List.countP_cons]
          simp only [hv]
          simp
        · rw [ihd]
          dsimp only
          rw [List.flatMap_cons,
            dismissFailureContribution_nil env prAuthor headSha r (by simpa using hst)]
          simp
        · rw [hex]
          dsimp only
          rw [List.append_assoc]
        · intro e he
          rcases List.mem_append.mp he with h | h
          · exact Or.inl (hshape e h)
          · exact hexshape e h
        · intro r' hr' hstale
          rcases List.mem_cons.mp hr' with h | h
          · rw [h] at hstale
            exact absurd hstale (by simpa using hst)
          · exact ihm r' h hstale

/-- The review-loop effects are only permission lookups and dismissal calls
(no fetch, comment, sleep or merge call). -/
lemma processReviews_effects_shape (env : ApiEnv) (prAuthor headSha : String)
    (reviews : List Review) :
    ∀ e ∈ (processReviews env prAuthor headSha reviews).effects,
      (∃ l, e = Effect.getPermission l) ∨ (∃ i m, e = Effect.dismissReview i m) := by
  obtain ⟨-, -, ⟨extra, hex, hexshape⟩, -, -⟩ :=
    processReviews_foldl_char env prAuthor headSha reviews ⟨0, [], [], []⟩
      (by intro l p hp; exact Option.noConfusion hp)
  intro e he
  rw [processReviews] at he
  rw [hex] at he
  exact hexshape e (by simpa using he)

/-- C6: the reconciliation loop counts as valid exactly the APPROVED reviews
whose reviewer is not the PR author, has a login and a permission in
{admin, maintain, write}, and whose recorded commit equals the current head
SHA; every review passing those filters but sitting on a non-current SHA has
a dismissal call in the trace whose message spells out the reviewed and
current short SHAs, is never counted regardless of the dismissal result, and
contributes exactly one failure line when (and only when) its dismissal
fails. -/
theorem approval_reconciliation_char :
    ∀ (env : ApiEnv) (prAuthor headSha : String) (reviews : List Review),
      (processReviews env prAuthor headSha reviews).validApprovals =
        reviews.countP (validApprovalSpec env prAuthor headSha) ∧
      (∀ r ∈ reviews, staleReviewSpec env prAuthor headSha r = true →
        Effect.dismissReview r.id (staleDismissMessage r.commitId headSha) ∈
          (processReviews env prAuthor headSha reviews).effects) ∧
      (processReviews env prAuthor headSha reviews).dismissFailures =
        reviews.flatMap (dismissFailureContribution env prAuthor headSha) := by
  intro env prAuthor headSha reviews
  obtain ⟨hv, hd, -, hm, -⟩ :=
    processReviews_foldl_char env prAuthor headSha reviews ⟨0, [], [], []⟩
      (by intro l p hp; exact Option.noConfusion hp)
  exact ⟨by simpa using hv, by simpa [processReviews] using hm,
    by simpa using hd⟩

/-- Witness for C6: a concrete stale review (valid reviewer, old SHA) is
dismissed with the two short SHAs in the message and not counted. -/
theorem approval_reconciliation_char_witness :
    (processReviews witnessStaleEnv "author1" "abc1234567"
      witnessStaleEnv.approvedReviews).validApprovals = 0 ∧
    Effect.dismissReview 9
        (staleDismissMessage (some "old1234567") "abc1234567") ∈
      (processReviews witnessStaleEnv "author1" "abc1234567"
        witnessStaleEnv.approvedReviews).effects :=
  ⟨by
    have h := (approval_reconciliation_char witnessStaleEnv "author1" "abc1234567"
      witnessStaleEnv.approvedReviews).1
    rw [h]
    decide,
   (approval_reconciliation_char witnessStaleEnv "author1" "abc1234567"
      witnessStaleEnv.approvedReviews).2.1
     { id := 9, userLogin := some "carol", commitId := some "old1234567" }
     (by decide) (by decide)⟩

/-! ## Claims C2 and C3: groundwork -/

/-- A prefix of a string is also a prefix of any right-extension of it. -/
lemma jsStartsWith_append (s t p : String) (h : jsStartsWith s p = true) :
    jsStartsWith (s ++ t) p = true := by
  rw [jsStartsWith] at h ⊢
  rw [List.isPrefixOf_iff_prefix] at h ⊢
  have he : (s ++ t).toList = s.toList ++ t.toList := String.data_append s t
  rw [he]
  exact h.trans (List.prefix_append _ _)

/-- The pre-merge TOCTOU comment starts with its headline. -/
lemma newCommitsComment_prefix (o c : String) :
    jsStartsWith (newCommitsComment o c) "## New commits detected" = true := by
  rw [newCommitsComment]
  apply jsStartsWith_append
  apply jsStartsWith_append
  apply jsStartsWith_append
  apply jsStartsWith_append
  decide

/-- The in-loop TOCTOU comment starts with the same headline. -/
lemma newCommitsDuringRetryComment_prefix (o c : String) :
    jsStartsWith (newCommitsDuringRetryComment o c) "## New commits detected" = true := by
  rw [newCommitsDuringRetryComment]
  apply jsStartsWith_append
  apply jsStartsWith_append
  apply jsStartsWith_append
  apply jsStartsWith_append
  decide

/-- The pending-mergeability comment starts with its headline. -/
lemma pendingComment_prefix (st : String) (rc ri : Nat) :
    jsStartsWith (pendingComment st rc ri) "## Mergeability status pending" = true := by
  rw [pendingComment]
  apply jsStartsWith_append
  apply jsStartsWith_append
  apply jsStartsWith_append
  apply jsStartsWith_append
  apply jsStartsWith_append
  apply jsStartsWith_append
  decide

/-- The conflicts comment starts with its headline. -/
lemma conflictsComment_prefix (m : Option Bool) (st : String) :
    jsStartsWith (conflictsComment m st) "## Conflicts detected" = true := by
  rw [conflictsComment]
  apply jsStartsWith_append
  apply jsStartsWith_append
  apply jsStartsWith_append
  apply jsStartsWith_append
  decide

/-- The generic not-mergeable comment starts with its headline. -/
lemma cannotMergeComment_prefix (m : Option Bool) (st : String) :
    jsStartsWith (cannotMergeComment m st) "## Cannot merge" = true := by
  rw [cannotMergeComment]
  apply jsStartsWith_append
  apply jsStartsWith_append
  apply jsStartsWith_append
  apply jsStartsWith_append
  decide

/-- The TOCTOU guard inside the retry loop: starting from a snapshot on the
original head SHA, either the loop aborts — and then its trace carries a
"New commits detected" comment and no merge call — or it completes with a
snapshot still on the original SHA, every snapshot it fetched also on the
original SHA, and no merge call in its trace. -/
lemma retryLoop_cases (env : ApiEnv) (d : Nat) (orig : String) :
    ∀ (fuel idx : Nat) (pr : PullRequestData), pr.headSha = orig →
      (∀ e, retryLoop env d orig fuel idx pr = .abortedRetry e →
        (∃ b, Effect.postComment b ∈ e ∧
          jsStartsWith b "## New commits detected" = true) ∧
        (∀ x ∈ e, x.isMergeCall = false)) ∧
      (∀ prF e, retryLoop env d orig fuel idx pr = .done prF e →
        prF.headSha = orig ∧
        (∀ i, Effect.fetchPR i ∈ e → (env.fetchPR i).headSha = orig) ∧
        (∀ x ∈ e, x.isMergeCall = false)) := by
  intro fuel
  induction fuel with
  | zero =>
    intro idx pr hpr
    constructor
    · intro e he
      exact RetryOutcome.noConfusion he
    · intro prF e he
      rw [retryLoop] at he
      injection he with h1 h2
      subst h1 h2
      exact ⟨hpr, by simp, by simp⟩
  | succ fuel ih =>
    intro idx pr hpr
    by_cases hm : pr.mergeable = none
    · by_cases hsha : (env.fetchPR idx).headSha ≠ orig
      · constructor
        · intro e he
          rw [retryLoop, if_pos hm, if_pos hsha] at he
          injection he with h1
          subst h1
          constructor
          · exact ⟨newCommitsDuringRetryComment orig (env.fetchPR idx).headSha,
              by simp, newCommitsDuringRetryComment_prefix _ _⟩
          · intro x hx
            simp only [List.mem_append, List.mem_cons, List.mem_singleton,
              List.not_mem_nil, or_false] at hx
            rcases hx with (h | h) | h <;> subst h <;> rfl
        · intro prF e he
          rw [retryLoop, if_pos hm, if_pos hsha] at he
          exact RetryOutcome.noConfusion he
      · push_neg at hsha
        obtain ⟨ihA, ihD⟩ := ih (idx + 1) (env.fetchPR idx) hsha
        constructor
        · intro e he
          rw [retryLoop, if_pos hm, if_neg (by simpa using hsha)] at he
          cases hrec : retryLoop env d orig fuel (idx + 1) (env.fetchPR idx) with
          | abortedRetry e' =>
            rw [hrec] at he
            injection he with h1
            subst h1
            obtain ⟨⟨b, hb, hbp⟩, hnm⟩ := ihA e' hrec
            refine ⟨⟨b, by simp [hb], hbp⟩, ?_⟩
            intro x hx
            rcases List.mem_append.mp hx with h | h
            · simp only [List.mem_cons, List.not_mem_nil, or_false] at h
              rcases h with h | h <;> subst h <;> rfl
            · exact hnm x h
          | done p' e' =>
            rw [hrec] at he
            exact RetryOutcome.noConfusion he
        · intro prF e he
          rw [retryLoop, if_pos hm, if_neg (by simpa using hsha)] at he
          cases hrec : retryLoop env d orig fuel (idx + 1) (env.fetchPR idx) with
          | abortedRetry e' =>
            rw [hrec] at he
            exact RetryOutcome.noConfusion he
          | done p' e' =>
            rw [hrec] at he
            injection he with h1 h2
            subst h1 h2
            obtain ⟨hp', hfetch, hnm⟩ := ihD p' e' hrec
            refine ⟨hp', ?_, ?_⟩
            · intro i hi
              rcases List.mem_append.mp hi with h | h
              · simp only [List.mem_cons, List.not_mem_nil, or_false] at h
                rcases h with h | h
                · exact absurd h (by simp)
                · injection h with h2
                  rw [h2]
                  exact hsha
              · exact hfetch i h
            · intro x hx
              rcases List.mem_append.mp hx with h | h
              · simp only [List.mem_cons, List.not_mem_nil, or_false] at h
                rcases h with h | h <;> subst h <;> rfl
              · exact hnm x h
    · constructor
      · intro e he
        rw [retryLoop, if_neg hm] at he
        exact RetryOutcome.noConfusion he
      · intro prF e he
        rw [retryLoop, if_neg hm] at he
        injection he with h1 h2
        subst h1 h2
        exact ⟨hpr, by simp, by simp⟩

/-- Every effect of a retry trace is a sleep of exactly `d` milliseconds or a
re-fetch, and every re-fetch in it is at an index of at least `idx`. -/
lemma retryTrace_shape (d : Nat) :
    ∀ (k idx : Nat), ∀ e ∈ retryTrace d idx k,
      (e = Effect.sleep d ∨ ∃ i, idx ≤ i ∧ e = Effect.fetchPR i) := by
  intro k
  induction k with
  | zero => intro idx e he; exact absurd he (by simp [retryTrace])
  | succ k ih =>
    intro idx e he
    rw [retryTrace] at he
    rcases List.mem_append.mp he with h | h
    · simp only [List.mem_cons, List.not_mem_nil, or_false] at h
      rcases h with h | h
      · exact Or.inl h
      · exact Or.inr ⟨idx, le_refl idx, h⟩
    · rcases ih (idx + 1) e h with h2 | ⟨i, hi, he2⟩
      · exact Or.inl h2
      · exact Or.inr ⟨i, by omega, he2⟩

/-- When no snapshot ever changes the head SHA, the retry loop never aborts:
starting at fetch index `idx` from the snapshot of the previous fetch, it
performs some `k ≤ fuel` sleep/fetch rounds — each sleeping `d` milliseconds
and then fetching the next index — and completes with the snapshot of the
last fetch. -/
lemma retryLoop_no_push (env : ApiEnv) (d : Nat) (orig : String)
    (hall : ∀ i, (env.fetchPR i).headSha = orig) :
    ∀ (fuel idx : Nat), 1 ≤ idx →
      ∃ k, k ≤ fuel ∧
        retryLoop env d orig fuel idx (env.fetchPR (idx - 1)) =
          .done (env.fetchPR (idx - 1 + k)) (retryTrace d idx k) ∧
        (∀ j, j < k → (env.fetchPR (idx - 1 + j)).mergeable = none) ∧
        (k < fuel → (env.fetchPR (idx - 1 + k)).mergeable ≠ none) := by
  intro fuel
  induction fuel with
  | zero =>
    intro idx _
    exact ⟨0, le_refl 0, by rw [retryLoop, retryTrace]; rfl,
      fun j hj => absurd hj (Nat.not_lt_zero j),
      fun h => absurd h (Nat.not_lt_zero 0)⟩
  | succ fuel ih =>
    intro idx hidx
    by_cases hm : (env.fetchPR (idx - 1)).mergeable = none
    · obtain ⟨k, hk, hrec, hpend, hstop⟩ := ih (idx + 1) (by omega)
      have hprev : idx + 1 - 1 = idx := by omega
      rw [hprev] at hrec hpend hstop
      refine ⟨k + 1, by omega, ?_, ?_, ?_⟩
      · rw [retryLoop, if_pos hm, if_neg (by simp [hall idx])]
        rw [hrec, retryTrace]
        have hidx2 : idx - 1 + (k + 1) = idx + k := by omega
        rw [hidx2]
      · intro j hj
        cases j with
        | zero => simpa using hm
        | succ j' =>
          have hidx3 : idx - 1 + (j' + 1) = idx + j' := by omega
          rw [hidx3]
          exact hpend j' (by omega)
      · intro hlt
        have hidx2 : idx - 1 + (k + 1) = idx + k := by omega
        rw [hidx2]
        exact hstop (by omega)
    · refine ⟨0, Nat.zero_le _, ?_, fun j hj => absurd hj (Nat.not_lt_zero j), ?_⟩
      · rw [retryLoop, if_neg hm, retryTrace]
        rfl
      · intro _
        simpa using hm

/-- On the all-checks-passed path, `executeAction` is the merge phase run on
the validated snapshot, its effect trace being the pre-phase effects followed
by the phase effects. -/
lemma executeAction_eq_phase (env : ApiEnv) (ctx : EventContext)
    (config : ActionConfig) (opts : MergeOptions)
    (h1 : ctx.eventName = "issue_comment") (h2 : ctx.isPullRequest = true)
    (h3 : isBot ctx.userType = false) (h4 : hasBotMention ctx.commentBody = true)
    (h5 : parseCommand ctx.commentBody = some opts)
    (h6 : hasValidAuthorAssociation ctx.authorAssociation = true)
    (h7 : hasValidPermission (env.permission ctx.actor) = true)
    (h8 : (env.fetchPR 0).isFork = false) (h9 : (env.fetchPR 0).merged = false)
    (hGate : mergeGatePassed (buildChecks (env.fetchPR 0) env.unresolvedCount
        (processReviews env (env.fetchPR 0).author (env.fetchPR 0).headSha
          env.approvedReviews).validApprovals opts.overrideApprovalRequirement) = true) :
    executeAction env ctx config =
      ((mergePhase env ctx config
          (approvalOverriddenOf
            (processReviews env (env.fetchPR 0).author (env.fetchPR 0).headSha
              env.approvedReviews).validApprovals opts.overrideApprovalRequirement)
          (determineMergeMethod (env.fetchPR 0).headRef (env.fetchPR 0).baseRef config)
          (env.fetchPR 0)).1,
        prePhaseEffects env ctx config opts ++
          (mergePhase env ctx config
            (approvalOverriddenOf
              (processReviews env (env.fetchPR 0).author (env.fetchPR 0).headSha
                env.approvedReviews).validApprovals opts.overrideApprovalRequirement)
            (determineMergeMethod (env.fetchPR 0).headRef (env.fetchPR 0).baseRef config)
            (env.fetchPR 0)).2) := by
  simp [executeAction, prePhaseEffects, h1, h2, h3, h4, h5, h6, h7, h8, h9, hGate]

/-- Every pre-phase effect is neither a sleep, nor a merge call, nor a
re-fetch of any index other than the initial fetch 0. -/
lemma prePhaseEffects_clean (env : ApiEnv) (ctx : EventContext)
    (config : ActionConfig) (opts : MergeOptions) :
    ∀ e ∈ prePhaseEffects env ctx config opts,
      e.isSleep = false ∧ e.isMergeCall = false ∧ e.isRetryFetch = false ∧
        e ≠ Effect.fetchPR 1 := by
  intro e he
  simp only [prePhaseEffects, List.mem_append] at he
  rcases he with ((h | h) | h) | h
  · simp only [List.mem_cons, List.not_mem_nil, or_false] at h
    rcases h with h | h | h | h | h <;> subst h <;>
      exact ⟨rfl, rfl, by simp [Effect.isRetryFetch], by simp⟩
  · rcases processReviews_effects_shape env (env.fetchPR 0).author
      (env.fetchPR 0).headSha env.approvedReviews e h with ⟨l, hl⟩ | ⟨i, m, hm⟩
    · subst hl
      exact ⟨rfl, rfl, rfl, by simp⟩
    · subst hm
      exact ⟨rfl, rfl, rfl, by simp⟩
  · by_cases hsplit : (processReviews env (env.fetchPR 0).author (env.fetchPR 0).headSha
        env.approvedReviews).dismissFailures.isEmpty
    · rw [if_pos hsplit] at h
      exact absurd h (by simp)
    · rw [if_neg hsplit] at h
      simp only [List.mem_singleton] at h
      subst h
      exact ⟨rfl, rfl, rfl, by simp⟩
  · simp only [List.mem_singleton] at h
    subst h
    exact ⟨rfl, rfl, rfl, by simp⟩

/-- The final mergeability gate of the source, as a Bool test, fails exactly
unless `mergeable = true` and `mergeableState = "clean"`. -/
lemma gate_bool_iff (pr : PullRequestData) :
    ((pr.mergeable == some false || pr.mergeable == none ||
      pr.mergeableState != "clean") = false) ↔
      (pr.mergeable = some true ∧ pr.mergeableState = "clean") := by
  cases hm : pr.mergeable with
  | none => simp [hm]
  | some b => cases b <;> simp [hm]

/-- Once the retry loop has completed, the merge phase performs no further
snapshot fetch: its trace is the TOCTOU re-fetch, the loop trace, and a tail
free of fetches. -/
lemma mergePhase_done_no_more_fetches (env : ApiEnv) (ctx : EventContext)
    (config : ActionConfig) (ov : Bool) (mmr : MergeMethodResult)
    (pr0 prF : PullRequestData) (e' : List Effect)
    (hsha1 : (env.fetchPR 1).headSha = pr0.headSha)
    (hloop : retryLoop env (config.mergeableRetryInterval * 1000) pr0.headSha
      config.mergeableRetryCount 2 (env.fetchPR 1) = .done prF e') :
    ∃ tail, (mergePhase env ctx config ov mmr pr0).2 =
        [Effect.fetchPR 1] ++ e' ++ tail ∧
      (∀ j, Effect.fetchPR j ∉ tail) ∧
      (∀ e ∈ tail, e.isSleep = false) := by
  simp only [mergePhase]
  rw [if_neg (by simpa using hsha1), hloop]
  dsimp only
  by_cases hbad : (prF.mergeable == some false || prF.mergeable == none ||
      prF.mergeableState != "clean") = true
  · rw [if_pos hbad]
    refine ⟨_, by rw [List.append_assoc], ?_, ?_⟩
    · intro j
      simp
    · intro e he
      simp only [List.mem_singleton] at he
      subst he
      rfl
  · rw [if_neg hbad]
    cases hmm : mmr.method with
    | merge =>
      by_cases hs : env.mergeResult.success
      · rw [if_neg (by simp [hs])]
        refine ⟨_, by rw [List.append_assoc, List.append_assoc], ?_, ?_⟩
        · intro j
          simp
        · intro e he
          simp only [List.mem_append, List.mem_singleton] at he
          rcases he with he | he <;> subst he <;> rfl
      · rw [if_pos (by simp [hs])]
        refine ⟨_, by rw [List.append_assoc, List.append_assoc], ?_, ?_⟩
        · intro j
          simp
        · intro e he
          simp only [List.mem_append, List.mem_singleton] at he
          rcases he with he | he <;> subst he <;> rfl
    | squash =>
      by_cases hs : env.mergeResult.success
      · rw [if_neg (by simp [hs])]
        refine ⟨_, by rw [List.append_assoc, List.append_assoc, List.append_assoc], ?_, ?_⟩
        · intro j
          simp
        · intro e he
          simp only [List.mem_append, List.mem_singleton] at he
          rcases he with he | he | he <;> subst he <;> rfl
      · rw [if_pos (by simp [hs])]
        refine ⟨_, by rw [List.append_assoc, List.append_assoc, List.append_assoc], ?_, ?_⟩
        · intro j
          simp
        · intro e he
          simp only [List.mem_append, List.mem_singleton] at he
          rcases he with he | he | he <;> subst he <;> rfl

/-- Value of the merge phase when the pre-merge re-fetch sees a new head SHA. -/
lemma mergePhase_toctou_eq (env : ApiEnv) (ctx : EventContext) (config : ActionConfig)
    (ov : Bool) (mmr : MergeMethodResult) (pr0 : PullRequestData)
    (hsha : (env.fetchPR 1).headSha ≠ pr0.headSha) :
    mergePhase env ctx config ov mmr pr0 =
      ({ status := .failed, message := "TOCTOU violation" },
       [Effect.fetchPR 1,
        Effect.postComment (newCommitsComment pr0.headSha (env.fetchPR 1).headSha)]) := by
  simp only [mergePhase]
  rw [if_pos hsha]
  rfl

/-- Value of the merge phase when the retry loop aborts on a new head SHA. -/
lemma mergePhase_abort_eq (env : ApiEnv) (ctx : EventContext) (config : ActionConfig)
    (ov : Bool) (mmr : MergeMethodResult) (pr0 : PullRequestData) (e' : List Effect)
    (hsha1 : (env.fetchPR 1).headSha = pr0.headSha)
    (hloop : retryLoop env (config.mergeableRetryInterval * 1000) pr0.headSha
      config.mergeableRetryCount 2 (env.fetchPR 1) = .abortedRetry e') :
    mergePhase env ctx config ov mmr pr0 =
      ({ status := .failed, message := "TOCTOU violation during retry" },
       [Effect.fetchPR 1] ++ e') := by
  simp only [mergePhase]
  rw [if_neg (by simpa using hsha1), hloop]

/-- A trace all of whose effects are non-merge-calls has no merge call. -/
lemma noMergeCall_of (l : List Effect) (h : ∀ e ∈ l, e.isMergeCall = false) :
    noMergeCall l = true := by
  rw [noMergeCall, List.all_eq_true]
  intro e he
  simp [h e he]

/-- C2: on the all-checks-passed path, whenever any re-fetched snapshot — the
pre-merge TOCTOU re-fetch (index 1) or any snapshot fetched inside the
mergeability retry loop (indices 2, 3, ...) — carries a head SHA different
from the snapshot the check-aggregation pass used, the pipeline returns a
failed outcome, posts a comment headed "New commits detected", and never
issues the merge call; the guard applies on every retry iteration, since the
quantifier ranges over every fetch the trace contains. -/
theorem toctou_guard_aborts_merge :
    ∀ (env : ApiEnv) (ctx : EventContext) (config : ActionConfig) (opts : MergeOptions),
      ctx.eventName = "issue_comment" →
      ctx.isPullRequest = true →
      isBot ctx.userType = false →
      hasBotMention ctx.commentBody = true →
      parseCommand ctx.commentBody = some opts →
      hasValidAuthorAssociation ctx.authorAssociation = true →
      hasValidPermission (env.permission ctx.actor) = true →
      (env.fetchPR 0).isFork = false →
      (env.fetchPR 0).merged = false →
      mergeGatePassed (buildChecks (env.fetchPR 0) env.unresolvedCount
        (processReviews env (env.fetchPR 0).author (env.fetchPR 0).headSha
          env.approvedReviews).validApprovals opts.overrideApprovalRequirement) = true →
      ∀ i, 1 ≤ i → Effect.fetchPR i ∈ (executeAction env ctx config).2 →
        (env.fetchPR i).headSha ≠ (env.fetchPR 0).headSha →
        (executeAction env ctx config).1.status = .failed ∧
        ((executeAction env ctx config).1.message = "TOCTOU violation" ∨
         (executeAction env ctx config).1.message = "TOCTOU violation during retry") ∧
        (∃ b, Effect.postComment b ∈ (executeAction env ctx config).2 ∧
          jsStartsWith b "## New commits detected" = true) ∧
        noMergeCall (executeAction env ctx config).2 = true := by
  intro env ctx config opts h1 h2 h3 h4 h5 h6 h7 h8 h9 hGate i hi hmem hne
  rw [executeAction_eq_phase env ctx config opts h1 h2 h3 h4 h5 h6 h7 h8 h9 hGate]
    at hmem ⊢
  dsimp only at hmem ⊢
  have hpre := prePhaseEffects_clean env ctx config opts
  have hmem2 : Effect.fetchPR i ∈
      (mergePhase env ctx config
        (approvalOverriddenOf
          (processReviews env (env.fetchPR 0).author (env.fetchPR 0).headSha
            env.approvedReviews).validApprovals opts.overrideApprovalRequirement)
        (determineMergeMethod (env.fetchPR 0).headRef (env.fetchPR 0).baseRef config)
        (env.fetchPR 0)).2 := by
    rcases List.mem_append.mp hmem with h | h
    · exfalso
      obtain ⟨-, -, hrf, hne1⟩ := hpre _ h
      rcases Nat.lt_or_ge i 2 with h2 | h2
      · have : i = 1 := by omega
        subst this
        exact hne1 rfl
      · rw [Effect.isRetryFetch] at hrf
        simp only [decide_eq_false_iff_not] at hrf
        exact hrf h2
    · exact h
  by_cases hsha1 : (env.fetchPR 1).headSha = (env.fetchPR 0).headSha
  · cases hloop : retryLoop env (config.mergeableRetryInterval * 1000)
        (env.fetchPR 0).headSha config.mergeableRetryCount 2 (env.fetchPR 1) with
    | abortedRetry e' =>
      have hph := mergePhase_abort_eq env ctx config
        (approvalOverriddenOf
          (processReviews env (env.fetchPR 0).author (env.fetchPR 0).headSha
            env.approvedReviews).validApprovals opts.overrideApprovalRequirement)
        (determineMergeMethod (env.fetchPR 0).headRef (env.fetchPR 0).baseRef config)
        (env.fetchPR 0) e' hsha1 hloop
      rw [hph]
      obtain ⟨⟨b, hb, hbp⟩, hnm⟩ :=
        (retryLoop_cases env (config.mergeableRetryInterval * 1000)
          (env.fetchPR 0).headSha config.mergeableRetryCount 2
          (env.fetchPR 1) hsha1).1 e' hloop
      refine ⟨rfl, Or.inr rfl, ⟨b, ?_, hbp⟩, ?_⟩
      · simp [hb]
      · apply noMergeCall_of
        intro x hx
        rcases List.mem_append.mp hx with h | h
        · exact (hpre x h).2.1
        · rcases List.mem_append.mp h with h | h
          · simp only [List.mem_singleton] at h
            subst h
            rfl
          · exact hnm x h
    | done prF e' =>
      exfalso
      obtain ⟨hprF, hfetch, hnm⟩ :=
        (retryLoop_cases env (config.mergeableRetryInterval * 1000)
          (env.fetchPR 0).headSha config.mergeableRetryCount 2
          (env.fetchPR 1) hsha1).2 prF e' hloop
      obtain ⟨tail, htail, hnof, -⟩ := mergePhase_done_no_more_fetches env ctx config
        (approvalOverriddenOf
          (processReviews env (env.fetchPR 0).author (env.fetchPR 0).headSha
            env.approvedReviews).validApprovals opts.overrideApprovalRequirement)
        (determineMergeMethod (env.fetchPR 0).headRef (env.fetchPR 0).baseRef config)
        (env.fetchPR 0) prF e' hsha1 hloop
      rw [htail] at hmem2
      rcases List.mem_append.mp hmem2 with h | h
      · rcases List.mem_append.mp h with h | h
        · simp only [List.mem_singleton] at h
          injection h with h2
          subst h2
          exact hne hsha1
        · exact hne (hfetch i h)
      · exact hnof i h
  · have hph := mergePhase_toctou_eq env ctx config
      (approvalOverriddenOf
        (processReviews env (env.fetchPR 0).author (env.fetchPR 0).headSha
          env.approvedReviews).validApprovals opts.overrideApprovalRequirement)
      (determineMergeMethod (env.fetchPR 0).headRef (env.fetchPR 0).baseRef config)
      (env.fetchPR 0) hsha1
    rw [hph]
    refine ⟨rfl, Or.inl rfl,
      ⟨newCommitsComment (env.fetchPR 0).headSha (env.fetchPR 1).headSha, by simp,
        newCommitsComment_prefix _ _⟩, ?_⟩
    apply noMergeCall_of
    intro x hx
    rcases List.mem_append.mp hx with h | h
    · exact (hpre x h).2.1
    · simp only [List.mem_cons, List.not_mem_nil, or_false] at h
      rcases h with h | h <;> subst h <;> rfl

/-- Witness for C2: with a head SHA change at the pre-merge re-fetch, the
concrete run fails with the new-commits comment and no merge call. -/
theorem toctou_guard_aborts_merge_witness :
    (executeAction witnessToctouEnv witnessCtx defaultActionConfig).1.status =
      ActionStatus.failed ∧
    ((executeAction witnessToctouEnv witnessCtx defaultActionConfig).1.message =
      "TOCTOU violation" ∨
     (executeAction witnessToctouEnv witnessCtx defaultActionConfig).1.message =
      "TOCTOU violation during retry") ∧
    (∃ b, Effect.postComment b ∈
        (executeAction witnessToctouEnv witnessCtx defaultActionConfig).2 ∧
      jsStartsWith b "## New commits detected" = true) ∧
    noMergeCall (executeAction witnessToctouEnv witnessCtx defaultActionConfig).2 = true :=
  toctou_guard_aborts_merge witnessToctouEnv witnessCtx defaultActionConfig
    { overrideApprovalRequirement := false }
    rfl rfl (by decide) (by decide) (by decide) (by decide) (by decide) rfl rfl
    (by decide) 1 (by decide) (by decide) (by decide)

/-- An effect is a retry fetch exactly when it is a fetch at index two or
beyond. -/
lemma isRetryFetch_iff (e : Effect) :
    e.isRetryFetch = true ↔ ∃ i, 2 ≤ i ∧ e = Effect.fetchPR i := by
  cases e <;> simp [Effect.isRetryFetch]

/-- The not-mergeable comment starts with the state-specific headline. -/
lemma notMergeableComment_prefix (prF : PullRequestData) (config : ActionConfig) :
    jsStartsWith (notMergeableComment prF config)
      (if prF.mergeable = none then "## Mergeability status pending"
       else if prF.mergeableState = "dirty" then "## Conflicts detected"
       else "## Cannot merge") = true := by
  rw [notMergeableComment]
  by_cases h1 : prF.mergeable = none
  · rw [if_pos h1, if_pos h1]
    exact pendingComment_prefix _ _ _
  · rw [if_neg h1, if_neg h1]
    by_cases h2 : prF.mergeableState = "dirty"
    · rw [if_pos h2, if_pos h2]
      exact conflictsComment_prefix _ _
    · rw [if_neg h2, if_neg h2]
      exact cannotMergeComment_prefix _ _

/-- Value of the merge phase when the loop completes on a snapshot that fails
the final mergeability gate. -/
lemma mergePhase_done_bad_eq (env : ApiEnv) (ctx : EventContext) (config : ActionConfig)
    (ov : Bool) (mmr : MergeMethodResult) (pr0 prF : PullRequestData) (e' : List Effect)
    (hsha1 : (env.fetchPR 1).headSha = pr0.headSha)
    (hloop : retryLoop env (config.mergeableRetryInterval * 1000) pr0.headSha
      config.mergeableRetryCount 2 (env.fetchPR 1) = .done prF e')
    (hbad : ¬(prF.mergeable = some true ∧ prF.mergeableState = "clean")) :
    mergePhase env ctx config ov mmr pr0 =
      ({ status := .failed, message := "Not mergeable" },
       [Effect.fetchPR 1] ++ e' ++
         [Effect.postComment (notMergeableComment prF config)]) := by
  have hbadBool : (prF.mergeable == some false || prF.mergeable == none ||
      prF.mergeableState != "clean") = true := by
    rcases Bool.eq_false_or_eq_true (prF.mergeable == some false ||
      prF.mergeable == none || prF.mergeableState != "clean") with h | h
    · exact h
    · exact absurd ((gate_bool_iff prF).mp h) hbad
  simp only [mergePhase]
  rw [if_neg (by simpa using hsha1), hloop]
  dsimp only
  rw [if_pos hbadBool, notMergeableComment, List.append_assoc]

/-- When the loop completes on a snapshot that passes the final gate, the
merge call is issued with the resolved method and the original head SHA as
its expected-SHA precondition. -/
lemma mergePhase_done_good_mergeCall (env : ApiEnv) (ctx : EventContext)
    (config : ActionConfig) (ov : Bool) (mmr : MergeMethodResult)
    (pr0 prF : PullRequestData) (e' : List Effect)
    (hsha1 : (env.fetchPR 1).headSha = pr0.headSha)
    (hloop : retryLoop env (config.mergeableRetryInterval * 1000) pr0.headSha
      config.mergeableRetryCount 2 (env.fetchPR 1) = .done prF e')
    (hgood : prF.mergeable = some true ∧ prF.mergeableState = "clean") :
    ∃ t b, Effect.mergeCall mmr.method pr0.headSha t b ∈
      (mergePhase env ctx config ov mmr pr0).2 := by
  have hbadBool : (prF.mergeable == some false || prF.mergeable == none ||
      prF.mergeableState != "clean") = false := (gate_bool_iff prF).mpr hgood
  simp only [mergePhase]
  rw [if_neg (by simpa using hsha1), hloop]
  dsimp only
  rw [if_neg (by simp [hbadBool])]
  cases hmm : mmr.method with
  | merge =>
    by_cases hs : env.mergeResult.success
    · rw [if_neg (by simp [hs])]
      exact ⟨"Merge pull request #" ++ toString ctx.prNumber ++ " from " ++ prF.headRef,
        prF.title ++ "\n\n" ++ additionalMessagesFor ctx.actor ov, by simp⟩
    · rw [if_pos (by simp [hs])]
      exact ⟨"Merge pull request #" ++ toString ctx.prNumber ++ " from " ++ prF.headRef,
        prF.title ++ "\n\n" ++ additionalMessagesFor ctx.actor ov, by simp⟩
  | squash =>
    by_cases hs : env.mergeResult.success
    · rw [if_neg (by simp [hs])]
      exact ⟨squashCommitTitle prF.title ctx.prNumber,
        squashCommitBody env.commits (additionalMessagesFor ctx.actor ov), by simp⟩
    · rw [if_pos (by simp [hs])]
      exact ⟨squashCommitTitle prF.title ctx.prNumber,
        squashCommitBody env.commits (additionalMessagesFor ctx.actor ov), by simp⟩

/-- C3: on the all-checks-passed path with no concurrent pushes, after the
TOCTOU re-fetch the executor performs some `k ≤ mergeableRetryCount` retry
rounds — precisely while the current snapshot still has the pending
tri-state — each round sleeping the configured interval (in milliseconds)
immediately before its re-fetch; the merge call is then issued if and only if
the final snapshot has `mergeable = true` and `mergeableState = "clean"`, and
every other combination yields the failed outcome "Not mergeable" with
state-specific wording (pending for the null tri-state, conflict wording for
"dirty", generic otherwise) and no merge call. -/
theorem mergeability_retry_and_final_gate :
    ∀ (env : ApiEnv) (ctx : EventContext) (config : ActionConfig) (opts : MergeOptions),
      ctx.eventName = "issue_comment" →
      ctx.isPullRequest = true →
      isBot ctx.userType = false →
      hasBotMention ctx.commentBody = true →
      parseCommand ctx.commentBody = some opts →
      hasValidAuthorAssociation ctx.authorAssociation = true →
      hasValidPermission (env.permission ctx.actor) = true →
      (env.fetchPR 0).isFork = false →
      (env.fetchPR 0).merged = false →
      mergeGatePassed (buildChecks (env.fetchPR 0) env.unresolvedCount
        (processReviews env (env.fetchPR 0).author (env.fetchPR 0).headSha
          env.approvedReviews).validApprovals opts.overrideApprovalRequirement) = true →
      (∀ i, (env.fetchPR i).headSha = (env.fetchPR 0).headSha) →
      ∃ k, k ≤ config.mergeableRetryCount ∧
        (∀ j, j < k → (env.fetchPR (1 + j)).mergeable = none) ∧
        (k < config.mergeableRetryCount → (env.fetchPR (1 + k)).mergeable ≠ none) ∧
        (∃ pre post, (executeAction env ctx config).2 =
            pre ++ retryTrace (config.mergeableRetryInterval * 1000) 2 k ++ post ∧
          (∀ e ∈ pre, e.isSleep = false ∧ e.isRetryFetch = false) ∧
          (∀ e ∈ post, e.isSleep = false ∧ e.isRetryFetch = false)) ∧
        ((∃ m s t b, Effect.mergeCall m s t b ∈ (executeAction env ctx config).2) ↔
          ((env.fetchPR (1 + k)).mergeable = some true ∧
           (env.fetchPR (1 + k)).mergeableState = "clean")) ∧
        (¬((env.fetchPR (1 + k)).mergeable = some true ∧
           (env.fetchPR (1 + k)).mergeableState = "clean") →
          (executeAction env ctx config).1.status = .failed ∧
          (executeAction env ctx config).1.message = "Not mergeable" ∧
          (∃ b, Effect.postComment b ∈ (executeAction env ctx config).2 ∧
            jsStartsWith b
              (if (env.fetchPR (1 + k)).mergeable = none then
                "## Mergeability status pending"
               else if (env.fetchPR (1 + k)).mergeableState = "dirty" then
                "## Conflicts detected"
               else "## Cannot merge") = true) ∧
          noMergeCall (executeAction env ctx config).2 = true) := by
  intro env ctx config opts h1 h2 h3 h4 h5 h6 h7 h8 h9 hGate hNoPush
  rw [executeAction_eq_phase env ctx config opts h1 h2 h3 h4 h5 h6 h7 h8 h9 hGate]
  dsimp only
  have hsha1 : (env.fetchPR 1).headSha = (env.fetchPR 0).headSha := hNoPush 1
  obtain ⟨k, hk, hloop, hpend, hstop⟩ := retryLoop_no_push env
    (config.mergeableRetryInterval * 1000) (env.fetchPR 0).headSha hNoPush
    config.mergeableRetryCount 2 (by omega)
  rw [show (2 : Nat) - 1 = 1 from rfl] at hloop hpend hstop
  have hpre := prePhaseEffects_clean env ctx config opts
  have hshape := retryTrace_shape (config.mergeableRetryInterval * 1000) k 2
  obtain ⟨tail, htail, hnof, hnosleep⟩ := mergePhase_done_no_more_fetches env ctx config
    (approvalOverriddenOf
      (processReviews env (env.fetchPR 0).author (env.fetchPR 0).headSha
        env.approvedReviews).validApprovals opts.overrideApprovalRequirement)
    (determineMergeMethod (env.fetchPR 0).headRef (env.fetchPR 0).baseRef config)
    (env.fetchPR 0) (env.fetchPR (1 + k))
    (retryTrace (config.mergeableRetryInterval * 1000) 2 k) hsha1 hloop
  refine ⟨k, hk, hpend, hstop, ?_, ?_, ?_⟩
  · refine ⟨prePhaseEffects env ctx config opts ++ [Effect.fetchPR 1], tail, ?_, ?_, ?_⟩
    · rw [htail]
      simp [List.append_assoc]
    · intro e he
      rcases List.mem_append.mp he with h | h
      · obtain ⟨hs, -, hrf, -⟩ := hpre e h
        exact ⟨hs, hrf⟩
      · simp only [List.mem_singleton] at h
        subst h
        exact ⟨rfl, rfl⟩
    · intro e he
      refine ⟨hnosleep e he, ?_⟩
      rcases Bool.eq_false_or_eq_true e.isRetryFetch with h | h
      · obtain ⟨i, -, hei⟩ := (isRetryFetch_iff e).mp h
        subst hei
        exact absurd he (hnof i)
      · exact h
  · constructor
    · rintro ⟨m, s2, t, b, hmc⟩
      by_contra hbad
      rw [mergePhase_done_bad_eq env ctx config
        (approvalOverriddenOf
          (processReviews env (env.fetchPR 0).author (env.fetchPR 0).headSha
            env.approvedReviews).validApprovals opts.overrideApprovalRequirement)
        (determineMergeMethod (env.fetchPR 0).headRef (env.fetchPR 0).baseRef config)
        (env.fetchPR 0) (env.fetchPR (1 + k))
        (retryTrace (config.mergeableRetryInterval * 1000) 2 k)
        hsha1 hloop hbad] at hmc
      dsimp only at hmc
      rcases List.mem_append.mp hmc with h | h
      · exact absurd ((hpre _ h).2.1) (by simp [Effect.isMergeCall])
      · rcases List.mem_append.mp h with h | h
        · rcases List.mem_append.mp h with h | h
          · simp only [List.mem_singleton] at h
            exact Effect.noConfusion h
          · rcases hshape _ h with h2 | ⟨i, -, h2⟩ <;> exact Effect.noConfusion h2
        · simp only [List.mem_singleton] at h
          exact Effect.noConfusion h
    · intro hgood
      obtain ⟨t, b, hmc⟩ := mergePhase_done_good_mergeCall env ctx config
        (approvalOverriddenOf
          (processReviews env (env.fetchPR 0).author (env.fetchPR 0).headSha
            env.approvedReviews).validApprovals opts.overrideApprovalRequirement)
        (determineMergeMethod (env.fetchPR 0).headRef (env.fetchPR 0).baseRef config)
        (env.fetchPR 0) (env.fetchPR (1 + k))
        (retryTrace (config.mergeableRetryInterval * 1000) 2 k) hsha1 hloop hgood
      exact ⟨_, _, t, b, List.mem_append.mpr (Or.inr hmc)⟩
  · intro hbad
    rw [mergePhase_done_bad_eq env ctx config
      (approvalOverriddenOf
        (processReviews env (env.fetchPR 0).author (env.fetchPR 0).headSha
          env.approvedReviews).validApprovals opts.overrideApprovalRequirement)
      (determineMergeMethod (env.fetchPR 0).headRef (env.fetchPR 0).baseRef config)
      (env.fetchPR 0) (env.fetchPR (1 + k))
      (retryTrace (config.mergeableRetryInterval * 1000) 2 k)
      hsha1 hloop hbad]
    dsimp only
    refine ⟨rfl, rfl,
      ⟨notMergeableComment (env.fetchPR (1 + k)) config, by simp,
        notMergeableComment_prefix _ config⟩, ?_⟩
    apply noMergeCall_of
    intro x hx
    rcases List.mem_append.mp hx with h | h
    · exact (hpre x h).2.1
    · rcases List.mem_append.mp h with h | h
      · rcases List.mem_append.mp h with h | h
        · simp only [List.mem_singleton] at h
          subst h
          rfl
        · rcases hshape x h with h2 | ⟨i, -, h2⟩ <;> subst h2 <;> rfl
      · simp only [List.mem_singleton] at h
        subst h
        rfl

/-- Witness for C3 at a concrete run that retries once and then merges. -/
theorem mergeability_retry_and_final_gate_witness :
    ∃ k, k ≤ defaultActionConfig.mergeableRetryCount ∧
      (∀ j, j < k → (witnessRetryEnv.fetchPR (1 + j)).mergeable = none) ∧
      (k < defaultActionConfig.mergeableRetryCount →
        (witnessRetryEnv.fetchPR (1 + k)).mergeable ≠ none) ∧
      (∃ pre post,
        (executeAction witnessRetryEnv witnessCtx defaultActionConfig).2 =
          pre ++ retryTrace (defaultActionConfig.mergeableRetryInterval * 1000) 2 k ++ post ∧
        (∀ e ∈ pre, e.isSleep = false ∧ e.isRetryFetch = false) ∧
        (∀ e ∈ post, e.isSleep = false ∧ e.isRetryFetch = false)) ∧
      ((∃ m s t b, Effect.mergeCall m s t b ∈
          (executeAction witnessRetryEnv witnessCtx defaultActionConfig).2) ↔
        ((witnessRetryEnv.fetchPR (1 + k)).mergeable = some true ∧
         (witnessRetryEnv.fetchPR (1 + k)).mergeableState = "clean")) ∧
      (¬((witnessRetryEnv.fetchPR (1 + k)).mergeable = some true ∧
         (witnessRetryEnv.fetchPR (1 + k)).mergeableState = "clean") →
        (executeAction witnessRetryEnv witnessCtx defaultActionConfig).1.status =
          ActionStatus.failed ∧
        (executeAction witnessRetryEnv witnessCtx defaultActionConfig).1.message =
          "Not mergeable" ∧
        (∃ b, Effect.postComment b ∈
            (executeAction witnessRetryEnv witnessCtx defaultActionConfig).2 ∧
          jsStartsWith b
            (if (witnessRetryEnv.fetchPR (1 + k)).mergeable = none then
              "## Mergeability status pending"
             else if (witnessRetryEnv.fetchPR (1 + k)).mergeableState = "dirty" then
              "## Conflicts detected"
             else "## Cannot merge") = true) ∧
        noMergeCall (executeAction witnessRetryEnv witnessCtx defaultActionConfig).2 =
          true) :=
  mergeability_retry_and_final_gate witnessRetryEnv witnessCtx defaultActionConfig
    { overrideApprovalRequirement := false }
    rfl rfl (by decide) (by decide) (by decide) (by decide) (by decide) rfl rfl
    (by decide)
    (by
      intro i
      show ((witnessRetryEnv.fetchPR i).headSha = (witnessRetryEnv.fetchPR 0).headSha)
      simp only [witnessRetryEnv]
      split_ifs <;> rfl)

end Nylbot
